import Mathlib

/-!
# Report engine of the network scanner: sanitizer and summarizer

Shallow embedding of `engines/go-reports/sanitize.go` and
`engines/go-reports/summary.go`, with the data shapes of `main.go`.

Conventions of the embedding.

* A Go `string` is a Lean `String`.  The separators the sanitizer splits on
  (`.`, `:`, `-`) are ASCII, and an ASCII byte never occurs inside a multi-byte
  UTF-8 sequence, so splitting the bytes and splitting the characters agree on
  every string the JSON decoder can deliver.
* Go `int` counters are `Nat`: every counter is bounded by the number of
  elements of slices held in memory, far below `2^63`.
* `uint16` port numbers are `Nat`; the summarizer only compares them.
* A Go `map` is an association list without duplicate keys, kept in insertion
  order.  The order in which `range` visits a map and the permutation chosen by
  the unstable `sort.Slice` belong to the Go runtime and are left to a
  `GoRuntime` value over which every theorem quantifies.
-/

namespace GoReports

/-! ## Strings -/

/-- Character-list worker of `strings.Split` for a one-character separator:
the pieces between consecutive separators, `n + 1` pieces for `n` separators. -/
def splitChars (sep : Char) : List Char → List (List Char)
  | [] => [[]]
  | c :: cs =>
    if c = sep then [] :: splitChars sep cs
    else
      match splitChars sep cs with
      | [] => [[c]]
      | p :: ps => (c :: p) :: ps

/-- Go `strings.Split(s, sep)` with a separator of one character. -/
def Split (s : String) (sep : Char) : List String :=
  (splitChars sep s.data).map String.mk

/-- Go `parts[i]` on a slice of strings (the callers check the length first). -/
def index (parts : List String) (i : Nat) : String :=
  parts.getD i ""

/-- Number of occurrences of the character `sep` in `s`. -/
def countSep (s : String) (sep : Char) : Nat :=
  s.data.count sep

/-! ## SHA-256 (`crypto/sha256`), bytes and words as natural numbers -/

/-- Round constants of SHA-256 (FIPS 180-4, section 4.2.2). -/
def sha256K : List Nat :=
  [0x428a2f98, 0x71374491, 0xb5c0fbcf, 0xe9b5dba5, 0x3956c25b, 0x59f111f1, 0x923f82a4, 0xab1c5ed5,
   0xd807aa98, 0x12835b01, 0x243185be, 0x550c7dc3, 0x72be5d74, 0x80deb1fe, 0x9bdc06a7, 0xc19bf174,
   0xe49b69c1, 0xefbe4786, 0x0fc19dc6, 0x240ca1cc, 0x2de92c6f, 0x4a7484aa, 0x5cb0a9dc, 0x76f988da,
   0x983e5152, 0xa831c66d, 0xb00327c8, 0xbf597fc7, 0xc6e00bf3, 0xd5a79147, 0x06ca6351, 0x14292967,
   0x27b70a85, 0x2e1b2138, 0x4d2c6dfc, 0x53380d13, 0x650a7354, 0x766a0abb, 0x81c2c92e, 0x92722c85,
   0xa2bfe8a1, 0xa81a664b, 0xc24b8b70, 0xc76c51a3, 0xd192e819, 0xd6990624, 0xf40e3585, 0x106aa070,
   0x19a4c116, 0x1e376c08, 0x2748774c, 0x34b0bcb5, 0x391c0cb3, 0x4ed8aa4a, 0x5b9cca4f, 0x682e6ff3,
   0x748f82ee, 0x78a5636f, 0x84c87814, 0x8cc70208, 0x90befffa, 0xa4506ceb, 0xbef9a3f7, 0xc67178f2]


/-- Addition of 32-bit words. -/
def add32 (a b : Nat) : Nat := (a + b) % 2 ^ 32

/-- Right rotation of a 32-bit word. -/
def rotr (n x : Nat) : Nat := ((x >>> n) ||| (x <<< (32 - n))) % 2 ^ 32

/-- The choice function `Ch` on 32-bit words. -/
def shaCh (e f g : Nat) : Nat := (e &&& f) ^^^ ((e ^^^ 0xffffffff) &&& g)

/-- The majority function `Maj`. -/
def shaMaj (a b c : Nat) : Nat := (a &&& b) ^^^ (a &&& c) ^^^ (b &&& c)

/-- The function written as capital sigma, index 0. -/
def bigSigma0 (a : Nat) : Nat := rotr 2 a ^^^ rotr 13 a ^^^ rotr 22 a

/-- The function written as capital sigma, index 1. -/
def bigSigma1 (e : Nat) : Nat := rotr 6 e ^^^ rotr 11 e ^^^ rotr 25 e

/-- The function written as small sigma, index 0. -/
def smallSigma0 (x : Nat) : Nat := rotr 7 x ^^^ rotr 18 x ^^^ (x >>> 3)

/-- The function written as small sigma, index 1. -/
def smallSigma1 (x : Nat) : Nat := rotr 17 x ^^^ rotr 19 x ^^^ (x >>> 10)

/-- Padding: the byte `0x80`, zero bytes up to 56 modulo 64, then the bit
length as a big-endian 64-bit integer. -/
def shaPad (msg : List Nat) : List Nat :=
  let bits := 8 * msg.length
  msg ++ [0x80] ++ List.replicate ((119 - msg.length % 64) % 64) 0
    ++ (List.range 8).map (fun i => bits / 256 ^ (7 - i) % 256)

/-- Cuts a list into `n` consecutive pieces of `k` elements. -/
def chunks (k : Nat) : Nat → List Nat → List (List Nat)
  | 0, _ => []
  | n + 1, l => l.take k :: chunks k n (l.drop k)

/-- Big-endian word of four bytes. -/
def beWord (bs : List Nat) : Nat :=
  bs.foldl (fun acc b => acc * 256 + b) 0

/-- Message schedule, newest word first: `n` further words from the last 16. -/
def shaExtend : Nat → List Nat → List Nat
  | 0, ws => ws
  | n + 1, ws =>
    shaExtend n
      (add32 (add32 (add32 (smallSigma1 (ws.getD 1 0)) (ws.getD 6 0))
        (smallSigma0 (ws.getD 14 0))) (ws.getD 15 0) :: ws)

/-- The 64 words of the message schedule of one 64-byte block. -/
def shaSchedule (block : List Nat) : List Nat :=
  (shaExtend 48 ((chunks 4 16 block).map beWord).reverse).reverse

/-- Working variables `a` to `h`. -/
structure ShaState where
  a : Nat
  b : Nat
  c : Nat
  d : Nat
  e : Nat
  f : Nat
  g : Nat
  h : Nat

/-- Initial hash value of SHA-256 (FIPS 180-4, section 5.3.3). -/
def sha256Init : ShaState :=
  ⟨0x6a09e667, 0xbb67ae85, 0x3c6ef372, 0xa54ff53a, 0x510e527f, 0x9b05688c, 0x1f83d9ab, 0x5be0cd19⟩

/-- One round of the compression function. -/
def shaRound (s : ShaState) (kw : Nat × Nat) : ShaState :=
  let t1 := add32 (add32 (add32 (add32 s.h (bigSigma1 s.e)) (shaCh s.e s.f s.g)) kw.1) kw.2
  let t2 := add32 (bigSigma0 s.a) (shaMaj s.a s.b s.c)
  { a := add32 t1 t2, b := s.a, c := s.b, d := s.c, e := add32 s.d t1, f := s.e, g := s.f, h := s.g }

/-- Compression of one block into the running hash value. -/
def shaCompress (hs : ShaState) (block : List Nat) : ShaState :=
  let r := (sha256K.zip (shaSchedule block)).foldl shaRound hs
  { a := add32 hs.a r.a, b := add32 hs.b r.b, c := add32 hs.c r.c, d := add32 hs.d r.d,
    e := add32 hs.e r.e, f := add32 hs.f r.f, g := add32 hs.g r.g, h := add32 hs.h r.h }

/-- Four big-endian bytes of a 32-bit word. -/
def beBytes (w : Nat) : List Nat :=
  [w / 2 ^ 24 % 256, w / 2 ^ 16 % 256, w / 2 ^ 8 % 256, w % 256]

/-- Go `sha256.Sum256`: the 32-byte SHA-256 digest of a byte string. -/
def Sum256 (data : List Nat) : List Nat :=
  let padded := shaPad data
  let s := (chunks 64 (padded.length / 64) padded).foldl shaCompress sha256Init
  beBytes s.a ++ beBytes s.b ++ beBytes s.c ++ beBytes s.d
    ++ beBytes s.e ++ beBytes s.f ++ beBytes s.g ++ beBytes s.h

/-- UTF-8 encoding of one character. -/
def utf8Char (c : Char) : List Nat :=
  let v := c.toNat
  if v < 0x80 then [v]
  else if v < 0x800 then [0xC0 + v / 64, 0x80 + v % 64]
  else if v < 0x10000 then [0xE0 + v / 4096, 0x80 + v / 64 % 64, 0x80 + v % 64]
  else [0xF0 + v / 262144, 0x80 + v / 4096 % 64, 0x80 + v / 64 % 64, 0x80 + v % 64]

/-- Go `[]byte(s)`. -/
def bytesOf (s : String) : List Nat :=
  s.data.flatMap utf8Char

/-- Digit table of the `%x` verb. -/
def ldigits : List Char := "0123456789abcdef".data

/-- Digit of the `%x` verb for a value below 16. -/
def hexDigit (n : Nat) : Char := ldigits.getD n '0'

/-- Go `%x` applied to a byte slice: two lowercase digits per byte. -/
def hexBytes (bs : List Nat) : List Char :=
  bs.flatMap (fun b => [hexDigit (b / 16), hexDigit (b % 16)])

/-! ## sanitize.go -/

/-- Go `sanitizeIP`: masks the fourth dot-separated component. -/
def sanitizeIP (ip : String) : String :=
  if ip = "" then ip
  else
    let parts := Split ip '.'
    if parts.length ≠ 4 then ip
    else index parts 0 ++ "." ++ index parts 1 ++ "." ++ index parts 2 ++ ".x"

/-- Go `sanitizeMAC`: masks the last three of six components, colon first,
dash second. -/
def sanitizeMAC (mac : String) : String :=
  if mac = "" then mac
  else
    let sep := ':'
    let parts := Split mac ':'
    let (parts, sep) :=
      if parts.length ≠ 6 then (Split mac '-', '-') else (parts, sep)
    if parts.length ≠ 6 then mac
    else
      index parts 0 ++ sep.toString ++ index parts 1 ++ sep.toString ++ index parts 2
        ++ sep.toString ++ "XX" ++ sep.toString ++ "XX" ++ sep.toString ++ "XX"

/-- Go `sanitizeHostname`: `"host-"` and the first four digest bytes in hex;
the empty name and `"Unknown"` pass through. -/
def sanitizeHostname (hostname : String) : String :=
  if hostname = "" ∨ hostname = "Unknown" then hostname
  else
    let hash := Sum256 (bytesOf hostname)
    "host-" ++ String.mk (hexBytes (hash.take 4))

/-! ## Data shapes of main.go -/

/-- Go `Host`: one scanned machine. -/
structure Host where
  IP : String
  MAC : String
  Hostname : String
  Vendor : String
  OS : String
  Ports : List Nat
deriving DecidableEq, Repr

/-- Go `DeepScanPort`: the deep-scan finding of one port. -/
structure DeepScanPort where
  Port : Nat
  ServiceName : String
  Details : String
  Vulnerable : Bool
  Severity : String
  RawBanner : String
deriving DecidableEq, Repr

/-- Go `HostWithPorts`: a `Host` (embedded) with its deep-scan findings. -/
structure HostWithPorts extends Host where
  DeepPorts : List DeepScanPort
deriving DecidableEq, Repr

/-- Go `PortChange`. -/
structure PortChange where
  IP : String
  AddedPorts : List Nat
  RemovedPorts : List Nat
deriving DecidableEq, Repr

/-- Go `DiffSummary`. -/
structure DiffSummary where
  TotalNew : Nat
  TotalMissing : Nat
  TotalPortChanges : Nat
  TotalBannerChanges : Nat
  TotalTLSChanges : Nat
deriving DecidableEq, Repr

/-- Go `DiffResult`: the baseline comparison handed to the summarizer. -/
structure DiffResult where
  NewHosts : List Host
  MissingHosts : List Host
  PortChanges : List PortChange
  SummaryStats : DiffSummary
deriving DecidableEq, Repr

/-- Go `SanitizeHost`, the record after the in-place update. -/
def SanitizeHost (host : HostWithPorts) : HostWithPorts :=
  let host := { host with MAC := sanitizeMAC host.MAC }
  let host := { host with IP := sanitizeIP host.IP }
  let host := { host with Hostname := sanitizeHostname host.Hostname }
  host

/-! ## Slices, maps and the Go runtime -/

/-- A Go slice value as the summarizer builds it: `none` is the nil slice,
`some l` an allocated slice with the elements `l`. -/
abbrev Slice (α : Type) := Option (List α)

/-- Elements of a slice; the nil slice has none. -/
def Slice.elems {α : Type} : Slice α → List α
  | none => []
  | some l => l

/-- Go `append(s, x)`. -/
def Slice.push {α : Type} (s : Slice α) (x : α) : Slice α :=
  some (s.elems ++ [x])

/-- Go `m[k]` with the presence flag, on an association list. -/
def mapGet {κ ν : Type} [DecidableEq κ] : List (κ × ν) → κ → Option ν
  | [], _ => none
  | (k', v') :: m, k => if k' = k then some v' else mapGet m k

/-- Go `m[k] = v`: overwrite in place, or add a new key at the end. -/
def mapSet {κ ν : Type} [DecidableEq κ] : List (κ × ν) → κ → ν → List (κ × ν)
  | [], k, v => [(k, v)]
  | (k', v') :: m, k, v => if k' = k then (k', v) :: m else (k', v') :: mapSet m k v

/-- What `sort.Slice` asks of its `less`: a strict weak ordering. -/
def StrictWeakOrder {α : Type} (less : α → α → Bool) : Prop :=
  (∀ x, less x x = false) ∧
  (∀ x y z, less x y = true → less y z = true → less x z = true) ∧
  (∀ x y z, less x y = false → less y z = false → less x z = false)

/-- The choices Go leaves to its runtime: the order in which `range` visits a
map, and the permutation `sort.Slice` produces (it is not stable). -/
structure GoRuntime where
  /-- visiting order of `for k, v := range m` -/
  mapRange : {κ ν : Type} → List (κ × ν) → List (κ × ν)
  mapRange_perm : ∀ {κ ν : Type} (m : List (κ × ν)), (mapRange m).Perm m
  /-- result of `sort.Slice(x, less)` -/
  sortSlice : {α : Type} → (α → α → Bool) → List α → List α
  sortSlice_perm : ∀ {α : Type} (less : α → α → Bool) (l : List α), (sortSlice less l).Perm l
  sortSlice_sorted : ∀ {α : Type} (less : α → α → Bool) (l : List α), StrictWeakOrder less →
    (sortSlice less l).Pairwise (fun x y => less y x = false)

/-! ## summary.go -/

/-- Go `RiskyHost`. -/
structure RiskyHost where
  IP : String
  Hostname : String
  VulnCount : Nat
deriving DecidableEq, Repr

/-- Go `ExposedPort`. -/
structure ExposedPort where
  Port : Nat
  Service : String
  Count : Nat
deriving DecidableEq, Repr

/-- Go `NewExposure`. -/
structure NewExposure where
  IP : String
  Port : Nat
deriving DecidableEq, Repr

/-- Go `Summary`. -/
structure Summary where
  TotalHosts : Nat
  TotalPorts : Nat
  CriticalCount : Nat
  WarningCount : Nat
  RiskyHosts : Slice RiskyHost
  ExposedPorts : Slice ExposedPort
  NewExposures : Slice NewExposure
deriving DecidableEq, Repr

/-- Go `guessService`. -/
def guessService (port : Nat) : String :=
  match port with
  | 21 => "FTP"
  | 22 => "SSH"
  | 23 => "Telnet"
  | 25 => "SMTP"
  | 53 => "DNS"
  | 80 => "HTTP"
  | 110 => "POP3"
  | 143 => "IMAP"
  | 443 => "HTTPS"
  | 445 => "SMB"
  | 3306 => "MySQL"
  | 3389 => "RDP"
  | 5432 => "PostgreSQL"
  | 5900 => "VNC"
  | 6379 => "Redis"
  | 8080 => "HTTP Proxy"
  | 27017 => "MongoDB"
  | _ => "Unknown"

/-- Variables the host loop of `GenerateSummary` writes: the two severity
counters of the summary and the three local maps. -/
structure Tally where
  CriticalCount : Nat
  WarningCount : Nat
  riskyMap : List (String × RiskyHost)
  portCounts : List (Nat × Nat)
  portServices : List (Nat × String)
deriving DecidableEq, Repr

/-- The `if dp.Vulnerable` block of the inner loop. -/
def vulnStep (host : HostWithPorts) (t : Tally) (dp : DeepScanPort) : Tally :=
  if dp.Vulnerable then
    let t :=
      match mapGet t.riskyMap host.IP with
      | some rh =>
        let rh : RiskyHost := { rh with VulnCount := rh.VulnCount + 1 }
        { t with riskyMap := mapSet t.riskyMap host.IP rh }
      | none =>
        let rh : RiskyHost := { IP := host.IP, Hostname := host.Hostname, VulnCount := 1 }
        { t with riskyMap := mapSet t.riskyMap host.IP rh }
    if dp.Severity = "critical" then { t with CriticalCount := t.CriticalCount + 1 }
    else if dp.Severity = "warning" then { t with WarningCount := t.WarningCount + 1 }
    else t
  else t

/-- Go `portCounts[p]++`; a missing key reads as 0. -/
def countPort (portCounts : List (Nat × Nat)) (p : Nat) : List (Nat × Nat) :=
  mapSet portCounts p ((mapGet portCounts p).getD 0 + 1)

/-- Body of `for _, dp := range host.DeepPorts`. -/
def deepStep (host : HostWithPorts) (t : Tally) (dp : DeepScanPort) : Tally :=
  let t := vulnStep host t dp
  let t := { t with portCounts := countPort t.portCounts dp.Port }
  if (mapGet t.portServices dp.Port).getD "" = "" then
    { t with portServices := mapSet t.portServices dp.Port dp.ServiceName }
  else t

/-- Body of the second `for _, host := range hosts`. -/
def hostStep (t : Tally) (host : HostWithPorts) : Tally :=
  let t := host.DeepPorts.foldl (deepStep host) t
  { t with portCounts := host.Ports.foldl countPort t.portCounts }

/-- State of the maps and severity counters after the host loop. -/
def tally (hosts : List HostWithPorts) : Tally :=
  hosts.foldl hostStep
    { CriticalCount := 0, WarningCount := 0, riskyMap := [], portCounts := [], portServices := [] }

/-- Comparison handed to `sort.Slice` for `RiskyHosts`. -/
def riskyLess (x y : RiskyHost) : Bool := decide (x.VulnCount > y.VulnCount)

/-- Comparison handed to `sort.Slice` for `ExposedPorts`. -/
def exposedLess (x y : ExposedPort) : Bool := decide (x.Count > y.Count)

/-- Body of `for port, count := range portCounts`. -/
def exposeStep (portServices : List (Nat × String)) (s : Slice ExposedPort) (kv : Nat × Nat) :
    Slice ExposedPort :=
  if kv.2 ≥ 3 then
    let service := (mapGet portServices kv.1).getD ""
    let service := if service = "" then guessService kv.1 else service
    s.push { Port := kv.1, Service := service, Count := kv.2 }
  else s

/-- The loop `for _, rh := range riskyMap` appending `*rh`. -/
def collectRisky (rt : GoRuntime) (riskyMap : List (String × RiskyHost)) (s : Slice RiskyHost) :
    Slice RiskyHost :=
  (rt.mapRange riskyMap).foldl (fun s kv => s.push kv.2) s

/-- The loop `for port, count := range portCounts`. -/
def collectExposed (rt : GoRuntime) (portCounts : List (Nat × Nat))
    (portServices : List (Nat × String)) (s : Slice ExposedPort) : Slice ExposedPort :=
  (rt.mapRange portCounts).foldl (exposeStep portServices) s

/-- The loops over `baseline.PortChanges` and each `pc.AddedPorts`. -/
def collectNew (b : DiffResult) (s : Slice NewExposure) : Slice NewExposure :=
  b.PortChanges.foldl
    (fun s pc => pc.AddedPorts.foldl (fun s port => s.push ⟨pc.IP, port⟩) s) s

/-- Go `sort.Slice(s, less)` on a slice value; the nil slice stays nil. -/
def sortSlice {α : Type} (rt : GoRuntime) (less : α → α → Bool) (s : Slice α) : Slice α :=
  Option.map (rt.sortSlice less) s

/-- Go `if len(s) > n { s = s[:n] }`. -/
def limitTo {α : Type} (n : Nat) (s : Slice α) : Slice α :=
  if s.elems.length > n then some (s.elems.take n) else s

/-- Go `GenerateSummary`.  `baseline = none` is the nil pointer. -/
def GenerateSummary (rt : GoRuntime) (hosts : List HostWithPorts) (baseline : Option DiffResult) :
    Summary :=
  let summary : Summary :=
    { TotalHosts := hosts.length, TotalPorts := 0, CriticalCount := 0, WarningCount := 0,
      RiskyHosts := none, ExposedPorts := none, NewExposures := none }
  -- Count total ports
  let total := hosts.foldl (fun n host => n + host.Ports.length) summary.TotalPorts
  let summary : Summary := { summary with TotalPorts := total }
  -- Analyze risky hosts, track port exposure
  let t := tally hosts
  let summary : Summary :=
    { summary with CriticalCount := t.CriticalCount, WarningCount := t.WarningCount }
  -- Convert risky hosts map to sorted slice
  let summary : Summary :=
    { summary with RiskyHosts := collectRisky rt t.riskyMap summary.RiskyHosts }
  let summary : Summary :=
    { summary with RiskyHosts := sortSlice rt riskyLess summary.RiskyHosts }
  -- Limit to top 10
  let summary : Summary := { summary with RiskyHosts := limitTo 10 summary.RiskyHosts }
  -- Find widely exposed ports
  let summary : Summary :=
    { summary with ExposedPorts := collectExposed rt t.portCounts t.portServices summary.ExposedPorts }
  let summary : Summary :=
    { summary with ExposedPorts := sortSlice rt exposedLess summary.ExposedPorts }
  -- Add new exposures from baseline diff
  let summary : Summary :=
    match baseline with
    | some b => { summary with NewExposures := collectNew b summary.NewExposures }
    | none => summary
  summary

/-- A runtime: maps are visited in insertion order, slices are sorted by
insertion sort. -/
def stdRuntime : GoRuntime where
  mapRange := fun m => m
  mapRange_perm := fun m => List.Perm.refl m
  sortSlice := fun less l => List.insertionSort (fun x y => less y x = false) l
  sortSlice_perm := fun less l => List.perm_insertionSort _ l
  sortSlice_sorted := by
    intro α less l h
    obtain ⟨hirr, htr, hneg⟩ := h
    haveI : IsTotal α (fun x y => less y x = false) := ⟨fun x y => by
      cases hxy : less y x
      · exact Or.inl rfl
      · right
        cases hyx : less x y
        · rfl
        · have := htr x y x hyx hxy
          rw [hirr x] at this
          exact absurd this (by simp)⟩
    haveI : IsTrans α (fun x y => less y x = false) := ⟨fun x y z hxy hyz => hneg z y x hyz hxy⟩
    exact List.sorted_insertionSort _ l

/-- A second runtime: maps are visited in reverse insertion order. -/
def revRuntime : GoRuntime :=
  { stdRuntime with
    mapRange := fun m => m.reverse
    mapRange_perm := fun m => List.reverse_perm m }

/-! ## Reference notions used by the statements -/

/-- All deep-scan findings of the collection, hosts in order. -/
def allDeepPorts (hosts : List HostWithPorts) : List DeepScanPort :=
  hosts.flatMap (fun h => h.DeepPorts)

/-- Number of findings of one host record that are flagged vulnerable. -/
def vulnFindings (h : HostWithPorts) : Nat :=
  (h.DeepPorts.filter (fun dp => dp.Vulnerable)).length

/-- Total number of vulnerable findings over the records with address `ip`. -/
def vulnTotal (hosts : List HostWithPorts) (ip : String) : Nat :=
  ((hosts.filter (fun h => h.IP = ip)).map vulnFindings).sum

/-- Distinct addresses having at least one vulnerable finding. -/
def vulnerableAddrs (hosts : List HostWithPorts) : List String :=
  ((hosts.filter (fun h => 0 < vulnFindings h)).map (fun h => h.IP)).dedup

/-- Number of host records on which port `p` was observed, in the basic port
list or among the deep-scan findings. -/
def hostsObserving (hosts : List HostWithPorts) (p : Nat) : Nat :=
  (hosts.filter (fun h => p ∈ h.Ports ∨ p ∈ h.DeepPorts.map (fun dp => dp.Port))).length


/-- One vulnerable finding as the risky-host map sees it: the address and the
host name of the record that carries it. -/
def vulnEvents (hosts : List HostWithPorts) : List (String × String) :=
  hosts.flatMap (fun h => (h.DeepPorts.filter (fun dp => dp.Vulnerable)).map
    (fun _ => (h.IP, h.Hostname)))

/-- Update of the risky-host map for one vulnerable finding. -/
def riskyStep (m : List (String × RiskyHost)) (e : String × String) : List (String × RiskyHost) :=
  match mapGet m e.1 with
  | some rh => mapSet m e.1 { rh with VulnCount := rh.VulnCount + 1 }
  | none => mapSet m e.1 { IP := e.1, Hostname := e.2, VulnCount := 1 }

/-- Ports in the order the host loop counts them: per host, the ports of its
findings, then its basic ports. -/
def portEvents (hosts : List HostWithPorts) : List Nat :=
  hosts.flatMap (fun h => h.DeepPorts.map (fun dp => dp.Port) ++ h.Ports)

/-- Number of vulnerable findings recorded for the address `ip`. -/
def eventCount (es : List (String × String)) (ip : String) : Nat :=
  es.countP (fun e => decide (e.1 = ip))

/-- First host record, in collection order, with address `ip` and at least
one vulnerable finding. -/
def firstVulnerable (hosts : List HostWithPorts) (ip : String) : Option HostWithPorts :=
  hosts.find? (fun h => decide (h.IP = ip) && decide (0 < vulnFindings h))

/-- The collection of `TestGenerateSummary_RiskyHosts`: two findings on the
first address, one on the second. -/
def riskyExample : List HostWithPorts :=
  [ { IP := "10.0.0.1", MAC := "", Hostname := "srv1", Vendor := "", OS := "", Ports := [],
      DeepPorts := [⟨22, "", "", true, "critical", ""⟩, ⟨80, "", "", true, "warning", ""⟩] },
    { IP := "10.0.0.2", MAC := "", Hostname := "srv2", Vendor := "", OS := "", Ports := [],
      DeepPorts := [⟨443, "", "", true, "critical", ""⟩] } ]

/-- Two hosts with port 22 open; the first one also has a deep-scan finding
for that port. -/
def twoHostsExample : List HostWithPorts :=
  [ { IP := "10.0.0.1", MAC := "", Hostname := "srv1", Vendor := "", OS := "", Ports := [22],
      DeepPorts := [⟨22, "ssh", "", false, "", ""⟩] },
    { IP := "10.0.0.2", MAC := "", Hostname := "srv2", Vendor := "", OS := "", Ports := [22],
      DeepPorts := [] } ]

/-- The collection of `TestGenerateSummary_RiskyHostsCappedAt10`: fifteen
addresses with one critical finding each. -/
def cappedExample : List HostWithPorts :=
  (List.range 15).map (fun i =>
    { IP := "10.0.0." ++ String.singleton (Char.ofNat (65 + i)), MAC := "", Hostname := "",
      Vendor := "", OS := "", Ports := [],
      DeepPorts := [⟨22, "", "", true, "critical", ""⟩] })

/-- The collection of `TestGenerateSummary_ExposedPorts`: port 22 on three
hosts, port 80 on two, port 443 on one. -/
def exposedExample : List HostWithPorts :=
  [ { IP := "10.0.0.1", MAC := "", Hostname := "", Vendor := "", OS := "", Ports := [22, 80],
      DeepPorts := [] },
    { IP := "10.0.0.2", MAC := "", Hostname := "", Vendor := "", OS := "", Ports := [22, 80],
      DeepPorts := [] },
    { IP := "10.0.0.3", MAC := "", Hostname := "", Vendor := "", OS := "", Ports := [22, 443],
      DeepPorts := [] } ]

/-- One host whose findings have the severities `Critical`, empty, `info`
(all flagged vulnerable) and `critical` (not flagged). -/
def severityExample : List HostWithPorts :=
  [ { IP := "10.0.0.1", MAC := "", Hostname := "srv1", Vendor := "", OS := "", Ports := [],
      DeepPorts := [⟨22, "", "", true, "Critical", ""⟩, ⟨23, "", "", true, "", ""⟩,
        ⟨25, "", "", true, "info", ""⟩, ⟨80, "", "", false, "critical", ""⟩] } ]

/-- Keys of a map. -/
def mapKeys {κ ν : Type} (m : List (κ × ν)) : List κ := m.map Prod.fst

/-- The well-known-port table of the specification, section 6. -/
def wellKnownPorts : List (Nat × String) :=
  [(21, "FTP"), (22, "SSH"), (23, "Telnet"), (25, "SMTP"), (53, "DNS"), (80, "HTTP"),
   (110, "POP3"), (143, "IMAP"), (443, "HTTPS"), (445, "SMB"), (3306, "MySQL"), (3389, "RDP"),
   (5432, "PostgreSQL"), (5900, "VNC"), (6379, "Redis"), (8080, "HTTP Proxy"),
   (27017, "MongoDB")]

/-- The pairs (address, port) a baseline announces as newly opened, in the
order of the diff. -/
def addedPairs (b : DiffResult) : List NewExposure :=
  b.PortChanges.flatMap (fun pc => pc.AddedPorts.map (fun port => ⟨pc.IP, port⟩))

/-- The baseline of `TestGenerateSummary_NewExposures`, with a removed port
added to the first entry. -/
def baselineExample : DiffResult :=
  { NewHosts := [], MissingHosts := [],
    PortChanges := [⟨"10.0.0.1", [8080, 9090], [23]⟩, ⟨"10.0.0.2", [3306], []⟩],
    SummaryStats := ⟨0, 0, 2, 0, 0⟩ }

/-- A baseline with every list of removed ports emptied. -/
def dropRemoved (b : DiffResult) : DiffResult :=
  let changes := b.PortChanges.map (fun pc => { pc with RemovedPorts := [] })
  { b with PortChanges := changes }

/-- Update of the service map for one finding: the name is stored when the
map reads as empty at that port. -/
def svcStep (m : List (Nat × String)) (dp : DeepScanPort) : List (Nat × String) :=
  if (mapGet m dp.Port).getD "" = "" then mapSet m dp.Port dp.ServiceName else m

/-- Occurrences of port `p`, with multiplicity, over the basic port lists and
the deep-scan findings of all hosts. -/
def occurrences (hosts : List HostWithPorts) (p : Nat) : Nat :=
  (hosts.map (fun h => h.Ports.count p + (h.DeepPorts.map (fun dp => dp.Port)).count p)).sum

/-- First finding, hosts in order and findings in order, for port `p` with a
non-empty service name. -/
def firstNamed (hosts : List HostWithPorts) (p : Nat) : Option DeepScanPort :=
  (allDeepPorts hosts).find? (fun dp => decide (dp.Port = p) && decide (dp.ServiceName ≠ ""))

/-- Service label of port `p`: the name of the first named finding, else the
well-known label. -/
def serviceOf (hosts : List HostWithPorts) (p : Nat) : String :=
  match firstNamed hosts p with
  | some dp => dp.ServiceName
  | none => guessService p

/-- The entry one port counter contributes to `ExposedPorts`, if any. -/
def exposureOf (portServices : List (Nat × String)) (kv : Nat × Nat) : Option ExposedPort :=
  if kv.2 ≥ 3 then
    let service := (mapGet portServices kv.1).getD ""
    let service := if service = "" then guessService kv.1 else service
    some { Port := kv.1, Service := service, Count := kv.2 }
  else none

/-- Port 80 on three hosts and port 22 on four, port 80 met first; the deep
scan names port 22 `OpenSSH` on the third host. -/
def orderExample : List HostWithPorts :=
  [ { IP := "10.0.0.1", MAC := "", Hostname := "", Vendor := "", OS := "", Ports := [80, 22],
      DeepPorts := [] },
    { IP := "10.0.0.2", MAC := "", Hostname := "", Vendor := "", OS := "", Ports := [80, 22],
      DeepPorts := [⟨22, "", "", false, "", ""⟩] },
    { IP := "10.0.0.3", MAC := "", Hostname := "", Vendor := "", OS := "", Ports := [80],
      DeepPorts := [⟨22, "OpenSSH", "", false, "", ""⟩, ⟨22, "ssh", "", false, "", ""⟩] } ]

/-- Twelve vulnerable addresses `10.0.0.A` to `10.0.0.L`: the first two
with one vulnerable finding, the other ten with two. -/
def top10Example : List HostWithPorts :=
  (List.range 12).map (fun i =>
    { IP := "10.0.0." ++ String.singleton (Char.ofNat (65 + i)), MAC := "", Hostname := "",
      Vendor := "", OS := "", Ports := [],
      DeepPorts := if i < 2 then [⟨22, "", "", true, "critical", ""⟩]
        else [⟨22, "", "", true, "critical", ""⟩, ⟨80, "", "", true, "warning", ""⟩] })

/-! ## The exporter -/

/-- Modelled from the spec: `export.go` is not among the sources, only its
tests and its caller are.  These are the parts of the exporter the
specification leaves open: the JSON and HTML renderings, the CSV columns after
the first one, the text encoding of the CSV records, and the outcome of
creating and writing the destination file (`none` on success, the cause on
failure). -/
structure ExportEnv where
  renderJSON : List HostWithPorts → Option Summary → String
  renderHTML : List HostWithPorts → Option Summary → String
  headerRest : List HostWithPorts → List String
  hostRest : List HostWithPorts → HostWithPorts → List String
  findingRest : List HostWithPorts → HostWithPorts → DeepScanPort → List String
  encodeCSV : List (List String) → String
  writeFile : String → String → Option String

/-- Modelled from the spec: what one call of the exporter did, the files it
created or wrote to (path and content) and the error it returned, `none` on
success. -/
structure ExportOutcome where
  writes : List (String × String)
  err : Option String
deriving DecidableEq, Repr

/-- Modelled from the spec: the data rows of the CSV rendering (section 4.3
and the last design note), one row per deep-scan finding for a host that has
findings, one row for a host that has none, the host's address in the first
column. -/
def csvRows (env : ExportEnv) (hosts : List HostWithPorts) : List (List String) :=
  hosts.flatMap (fun h =>
    if h.DeepPorts.isEmpty then [h.IP :: env.hostRest hosts h]
    else h.DeepPorts.map (fun dp => h.IP :: env.findingRest hosts h dp))

/-- Modelled from the spec: the records of the CSV rendering, one header row
whose first column is `IP`, then the data rows. -/
def csvRecords (env : ExportEnv) (hosts : List HostWithPorts) : List (List String) :=
  ("IP" :: env.headerRest hosts) :: csvRows env hosts

/-- Modelled from the spec: the rendered bytes go to the destination path; a
failure to create or write the file is returned with its cause. -/
def writeReport (env : ExportEnv) (output content : String) : ExportOutcome :=
  { writes := [(output, content)],
    err := (env.writeFile output content).map (fun cause => "write " ++ output ++ ": " ++ cause) }

/-- Modelled from the spec: `Export(format, output, hosts, summary)` of
`export.go` (section 4.3).  The format is matched exactly against `json`,
`csv`, `html`, `pdf`; `pdf` always fails, naming the rendering dependency
(`gofpdf` in the test suite); any other identifier fails with an
`unsupported format` error that names it, before anything is written.  The
wording of the two messages beyond these parts is not given by the
specification. -/
def Export (env : ExportEnv) (format output : String) (hosts : List HostWithPorts)
    (summary : Option Summary) : ExportOutcome :=
  if format = "json" then writeReport env output (env.renderJSON hosts summary)
  else if format = "csv" then writeReport env output (env.encodeCSV (csvRecords env hosts))
  else if format = "html" then writeReport env output (env.renderHTML hosts summary)
  else if format = "pdf" then
    { writes := [], err := some "PDF export requires the gofpdf package" }
  else { writes := [], err := some ("unsupported format: " ++ format) }

/-- Go `strings.Contains(s, sub)`, as a proposition. -/
def Contains (s sub : String) : Prop := sub.data <:+: s.data

instance (s sub : String) : Decidable (Contains s sub) :=
  inferInstanceAs (Decidable (sub.data <:+: s.data))

/-- An environment for the examples: fixed renderings, the columns `Hostname`
and `Port`, records joined by commas and line feeds, every write succeeds. -/
def plainEnv : ExportEnv where
  renderJSON := fun _ _ => "{}"
  renderHTML := fun _ _ => "<html></html>"
  headerRest := fun _ => ["Hostname", "Port"]
  hostRest := fun _ h => [h.Hostname, ""]
  findingRest := fun _ h dp => [h.Hostname, toString dp.Port]
  encodeCSV := fun rows => String.intercalate "\n" (rows.map (String.intercalate ","))
  writeFile := fun _ _ => none

/-- The collection of `TestExportCSV_DeepPorts` followed by a host without
findings. -/
def csvExample : List HostWithPorts :=
  [ { IP := "10.0.0.1", MAC := "", Hostname := "", Vendor := "", OS := "", Ports := [],
      DeepPorts := [⟨22, "SSH", "", false, "", ""⟩, ⟨80, "HTTP", "", true, "warning", ""⟩] },
    { IP := "10.0.0.2", MAC := "", Hostname := "srv2", Vendor := "", OS := "", Ports := [22],
      DeepPorts := [] } ]

/-- A hardware address of mixed shape: not six colon-separated components,
six dash-separated ones, and exactly five colons inside the first three of
them. -/
def mixedSeparators (s : String) : Prop :=
  (Split s ':').length ≠ 6 ∧ (Split s '-').length = 6 ∧
    countSep (index (Split s '-') 0) ':' + countSep (index (Split s '-') 1) ':'
      + countSep (index (Split s '-') 2) ':' = 5

instance (s : String) : Decidable (mixedSeparators s) := by
  unfold mixedSeparators
  infer_instance

/-! ## Splitting and joining -/

theorem splitChars_ne_nil (sep : Char) (l : List Char) : splitChars sep l ≠ [] := by
  cases l with
  | nil => simp [splitChars]
  | cons c cs =>
    unfold splitChars
    split
    · simp
    · split <;> simp

/-- A piece without separator is its own split. -/
theorem splitChars_of_not_mem {sep : Char} {p : List Char} (h : sep ∉ p) :
    splitChars sep p = [p] := by
  induction p with
  | nil => rfl
  | cons c cs ih =>
    have hc : ¬ c = sep := fun e => h (by simp [e])
    have hcs : sep ∉ cs := fun e => h (List.mem_cons_of_mem _ e)
    simp [splitChars, hc, ih hcs]

/-- The first separator ends the first piece. -/
theorem splitChars_append_sep {sep : Char} {p : List Char} (h : sep ∉ p) (rest : List Char) :
    splitChars sep (p ++ sep :: rest) = p :: splitChars sep rest := by
  induction p with
  | nil => simp [splitChars]
  | cons c cs ih =>
    have hc : ¬ c = sep := fun e => h (by simp [e])
    have hcs : sep ∉ cs := fun e => h (List.mem_cons_of_mem _ e)
    simp [splitChars, hc, ih hcs]

/-- No piece of a split contains the separator. -/
theorem not_mem_of_mem_splitChars {sep : Char} {l p : List Char} (hp : p ∈ splitChars sep l) :
    sep ∉ p := by
  induction l generalizing p with
  | nil =>
    simp [splitChars] at hp
    simp [hp]
  | cons c cs ih =>
    unfold splitChars at hp
    split at hp
    · rcases List.mem_cons.1 hp with h | h
      · simp [h]
      · exact ih h
    · rename_i hc
      split at hp
      · rename_i hnil
        exact absurd hnil (splitChars_ne_nil sep cs)
      · rename_i q qs hq
        rcases List.mem_cons.1 hp with h | h
        · have hq0 : sep ∉ q := ih (by simp [hq])
          subst h
          intro hm
          rcases List.mem_cons.1 hm with e | e
          · exact hc e.symm
          · exact hq0 e
        · exact ih (by simp [hq, h])

/-- Joining the pieces with the separator gives the string back. -/
theorem intercalate_splitChars (sep : Char) (l : List Char) :
    List.intercalate [sep] (splitChars sep l) = l := by
  induction l with
  | nil => simp [splitChars, List.intercalate]
  | cons c cs ih =>
    unfold splitChars
    split
    · rename_i hc
      cases hs : splitChars sep cs with
      | nil => exact absurd hs (splitChars_ne_nil sep cs)
      | cons q qs =>
        rw [hs] at ih
        cases qs with
        | nil =>
          simp [List.intercalate] at ih ⊢
          simp [hc, ih]
        | cons r rs =>
          simp [List.intercalate] at ih ⊢
          simp [hc, ih]
    · split
      · rename_i hnil
        exact absurd hnil (splitChars_ne_nil sep cs)
      · rename_i q qs hq
        rw [hq] at ih
        cases qs with
        | nil =>
          simp [List.intercalate] at ih ⊢
          simp [ih]
        | cons r rs =>
          simp [List.intercalate] at ih ⊢
          simp [ih]

/-- A split has one piece more than the string has separators. -/
theorem length_splitChars (sep : Char) (l : List Char) :
    (splitChars sep l).length = l.count sep + 1 := by
  induction l with
  | nil => simp [splitChars]
  | cons c cs ih =>
    unfold splitChars
    split
    · rename_i hc
      simp [hc, ih]
    · rename_i hc
      split
      · rename_i hnil
        exact absurd hnil (splitChars_ne_nil sep cs)
      · rename_i q qs hq
        rw [hq] at ih
        have : (c == sep) = false := by simpa using hc
        simp [List.count_cons, this] at ih ⊢
        omega

/-- The character lists behind the pieces of a `Split`. -/
theorem splitChars_of_Split {s : String} {sep : Char} {ps : List String}
    (h : Split s sep = ps) : splitChars sep s.data = ps.map String.data := by
  have h2 := congrArg (List.map String.data) h
  simp only [Split, List.map_map] at h2
  have hid : (String.data ∘ String.mk) = id := by
    funext l
    rfl
  rw [hid, List.map_id] at h2
  exact h2

/-- `strings.Split` returns one piece more than there are separators. -/
theorem length_Split (s : String) (sep : Char) :
    (Split s sep).length = countSep s sep + 1 := by
  simp [Split, countSep, length_splitChars]

/-- No piece of a `Split` contains the separator. -/
theorem not_mem_of_mem_Split {s : String} {sep : Char} {p : String} (h : p ∈ Split s sep) :
    sep ∉ p.data := by
  simp only [Split, List.mem_map] at h
  obtain ⟨q, hq, rfl⟩ := h
  exact not_mem_of_mem_splitChars hq

/-- Splitting a string with three separator-free pieces in front of a masked
tail: the tail is split on its own. -/
theorem splitChars_three {sep : Char} {a b c : List Char} (ha : sep ∉ a) (hb : sep ∉ b)
    (hc : sep ∉ c) (tail : List Char) :
    splitChars sep (a ++ sep :: (b ++ sep :: (c ++ sep :: tail)))
      = a :: b :: c :: splitChars sep tail := by
  rw [splitChars_append_sep ha, splitChars_append_sep hb, splitChars_append_sep hc]

theorem sanitizeIP_of_Split {ip p0 p1 p2 p3 : String} (h : Split ip '.' = [p0, p1, p2, p3]) :
    sanitizeIP ip = p0 ++ "." ++ p1 ++ "." ++ p2 ++ ".x" := by
  have hne : ¬ ip = "" := by
    intro e
    subst e
    simp [Split, splitChars] at h
  simp [sanitizeIP, h, hne, index]

theorem eq_join_of_Split_four {s : String} {sep : Char} {p0 p1 p2 p3 : String}
    (h : Split s sep = [p0, p1, p2, p3]) :
    s = p0 ++ sep.toString ++ p1 ++ sep.toString ++ p2 ++ sep.toString ++ p3 := by
  have h1 := splitChars_of_Split h
  have h2 := intercalate_splitChars sep s.data
  rw [h1] at h2
  apply String.ext
  have hs : sep.toString.data = [sep] := rfl
  simp only [String.data_append, hs]
  simp [List.intercalate] at h2
  rw [← h2]
  simp

/-- C1. `sanitizeIP`: when splitting the address on `.` gives exactly four
components (the address is then these four joined by dots), the result is the
first three components, verbatim and joined by dots, followed by `.x`; for
every other string the result is the input, and the empty string gives the
empty string. -/
theorem sanitizeIP_spec (ip : String) :
    (∀ p0 p1 p2 p3 : String, Split ip '.' = [p0, p1, p2, p3] →
      ip = p0 ++ "." ++ p1 ++ "." ++ p2 ++ "." ++ p3 ∧
      sanitizeIP ip = p0 ++ "." ++ p1 ++ "." ++ p2 ++ ".x") ∧
    ((Split ip '.').length ≠ 4 → sanitizeIP ip = ip) ∧
    sanitizeIP "" = "" := by
  refine ⟨fun p0 p1 p2 p3 h => ⟨eq_join_of_Split_four h, sanitizeIP_of_Split h⟩, ?_, by decide⟩
  intro h
  simp [sanitizeIP, h]

/-- C1 at the address of the test suite and at a string of one component. -/
theorem sanitizeIP_spec_witness :
    ("192.168.1.50" = "192" ++ "." ++ "168" ++ "." ++ "1" ++ "." ++ "50" ∧
      sanitizeIP "192.168.1.50" = "192" ++ "." ++ "168" ++ "." ++ "1" ++ ".x") ∧
    sanitizeIP "10" = "10" :=
  ⟨(sanitizeIP_spec "192.168.1.50").1 "192" "168" "1" "50" (by decide),
   (sanitizeIP_spec "10").2.1 (by decide)⟩

/-- The masked rendering of six pieces: the first three kept, `XX` thrice. -/
theorem Split_masked {s : String} {sep : Char} (hX : sep ≠ 'X') {p0 p1 p2 p3 p4 p5 : String}
    (h : Split s sep = [p0, p1, p2, p3, p4, p5]) :
    Split (p0 ++ sep.toString ++ p1 ++ sep.toString ++ p2 ++ sep.toString ++ "XX"
        ++ sep.toString ++ "XX" ++ sep.toString ++ "XX") sep
      = [p0, p1, p2, "XX", "XX", "XX"] := by
  have h0 : sep ∉ p0.data := @not_mem_of_mem_Split s sep p0 (by simp [h])
  have h1 : sep ∉ p1.data := @not_mem_of_mem_Split s sep p1 (by simp [h])
  have h2 : sep ∉ p2.data := @not_mem_of_mem_Split s sep p2 (by simp [h])
  have hs : sep.toString.data = [sep] := rfl
  have hxx : "XX".data = ['X', 'X'] := rfl
  have hX2 : ¬ 'X' = sep := fun e => hX e.symm
  have hd : (p0 ++ sep.toString ++ p1 ++ sep.toString ++ p2 ++ sep.toString ++ "XX"
        ++ sep.toString ++ "XX" ++ sep.toString ++ "XX").data
      = p0.data ++ sep :: (p1.data ++ sep :: (p2.data ++ sep ::
          ['X', 'X', sep, 'X', 'X', sep, 'X', 'X'])) := by
    simp [String.data_append, hs, hxx]
  unfold Split
  rw [hd, splitChars_three h0 h1 h2]
  simp [splitChars, hX2]

theorem sanitizeMAC_of_colon {mac p0 p1 p2 p3 p4 p5 : String}
    (h : Split mac ':' = [p0, p1, p2, p3, p4, p5]) :
    sanitizeMAC mac = p0 ++ ":" ++ p1 ++ ":" ++ p2 ++ ":" ++ "XX" ++ ":" ++ "XX" ++ ":" ++ "XX" := by
  have hne : ¬ mac = "" := by
    intro e
    subst e
    simp [Split, splitChars] at h
  simp [sanitizeMAC, h, hne, index]
  rfl

theorem sanitizeMAC_of_dash {mac p0 p1 p2 p3 p4 p5 : String}
    (hc : (Split mac ':').length ≠ 6) (h : Split mac '-' = [p0, p1, p2, p3, p4, p5]) :
    sanitizeMAC mac = p0 ++ "-" ++ p1 ++ "-" ++ p2 ++ "-" ++ "XX" ++ "-" ++ "XX" ++ "-" ++ "XX" := by
  have hne : ¬ mac = "" := by
    intro e
    subst e
    simp [Split, splitChars] at h
  simp [sanitizeMAC, h, hc, hne, index]
  rfl

/-- C2. `sanitizeMAC`: with exactly six colon-separated components the
result is the first three components and `XX` three times, joined by colons,
and splitting it on `:` gives `[p0, p1, p2, "XX", "XX", "XX"]`; when the colon
split does not give six components but the dash split does, the same holds
with dashes; when neither split gives six components the result is the input,
and the empty string gives the empty string. -/
theorem sanitizeMAC_spec (mac : String) :
    (∀ p0 p1 p2 p3 p4 p5 : String, Split mac ':' = [p0, p1, p2, p3, p4, p5] →
      sanitizeMAC mac = p0 ++ ":" ++ p1 ++ ":" ++ p2 ++ ":" ++ "XX" ++ ":" ++ "XX" ++ ":" ++ "XX" ∧
      Split (sanitizeMAC mac) ':' = [p0, p1, p2, "XX", "XX", "XX"]) ∧
    ((Split mac ':').length ≠ 6 →
      ∀ p0 p1 p2 p3 p4 p5 : String, Split mac '-' = [p0, p1, p2, p3, p4, p5] →
        sanitizeMAC mac
          = p0 ++ "-" ++ p1 ++ "-" ++ p2 ++ "-" ++ "XX" ++ "-" ++ "XX" ++ "-" ++ "XX" ∧
        Split (sanitizeMAC mac) '-' = [p0, p1, p2, "XX", "XX", "XX"]) ∧
    ((Split mac ':').length ≠ 6 → (Split mac '-').length ≠ 6 → sanitizeMAC mac = mac) ∧
    sanitizeMAC "" = "" := by
  refine ⟨?_, ?_, ?_, by decide⟩
  · intro p0 p1 p2 p3 p4 p5 h
    refine ⟨sanitizeMAC_of_colon h, ?_⟩
    rw [sanitizeMAC_of_colon h]
    exact Split_masked (by decide) h
  · intro hc p0 p1 p2 p3 p4 p5 h
    refine ⟨sanitizeMAC_of_dash hc h, ?_⟩
    rw [sanitizeMAC_of_dash hc h]
    exact Split_masked (by decide) h
  · intro hc hd
    simp [sanitizeMAC, hc, hd]

/-- C2 at the three hardware addresses of the test suite. -/
theorem sanitizeMAC_spec_witness :
    (sanitizeMAC "00:1B:44:11:3A:B7"
        = "00" ++ ":" ++ "1B" ++ ":" ++ "44" ++ ":" ++ "XX" ++ ":" ++ "XX" ++ ":" ++ "XX" ∧
      Split (sanitizeMAC "00:1B:44:11:3A:B7") ':' = ["00", "1B", "44", "XX", "XX", "XX"]) ∧
    (sanitizeMAC "00-1B-44-11-3A-B7"
        = "00" ++ "-" ++ "1B" ++ "-" ++ "44" ++ "-" ++ "XX" ++ "-" ++ "XX" ++ "-" ++ "XX" ∧
      Split (sanitizeMAC "00-1B-44-11-3A-B7") '-' = ["00", "1B", "44", "XX", "XX", "XX"]) ∧
    sanitizeMAC "AA:BB" = "AA:BB" :=
  ⟨(sanitizeMAC_spec "00:1B:44:11:3A:B7").1 "00" "1B" "44" "11" "3A" "B7" (by decide),
   (sanitizeMAC_spec "00-1B-44-11-3A-B7").2.1 (by decide) "00" "1B" "44" "11" "3A" "B7" (by decide),
   (sanitizeMAC_spec "AA:BB").2.2.1 (by decide) (by decide)⟩

/-! ## Hostname masking -/

/-- The digest has 32 bytes. -/
theorem length_Sum256 (data : List Nat) : (Sum256 data).length = 32 := by
  simp [Sum256, beBytes]

/-- Every byte of the digest is below 256. -/
theorem Sum256_lt (data : List Nat) : ∀ b ∈ Sum256 data, b < 256 := by
  intro b hb
  simp only [Sum256, beBytes, List.mem_append, List.mem_cons, List.mem_singleton,
    List.not_mem_nil, or_false] at hb
  omega

/-- A digit of `%x` is one of the sixteen lowercase hexadecimal characters. -/
theorem hexDigit_mem {n : Nat} (h : n < 16) : hexDigit n ∈ "0123456789abcdef".data := by
  interval_cases n <;> decide

set_option maxRecDepth 100000 in
/-- SHA-256 of the three bytes `abc`, the first example of FIPS 180-4. -/
theorem Sum256_abc :
    String.mk (hexBytes (Sum256 (bytesOf "abc")))
      = "ba7816bf8f01cfea414140de5dae2223b00361a396177a9cb410ff61f20015ad" := by
  decide

set_option maxRecDepth 100000 in
/-- SHA-256 of the empty byte string. -/
theorem Sum256_empty :
    String.mk (hexBytes (Sum256 []))
      = "e3b0c44298fc1c149afbf4c8996fb92427ae41e4649b934ca495991b7852b855" := by
  decide

set_option maxRecDepth 100000 in
/-- The scenario of the specification: the masked name of `srv1`. -/
theorem sanitizeHostname_srv1 : sanitizeHostname "srv1" = "host-841e1226" := by
  decide

/-- The first four bytes of a digest, each below 256. -/
theorem Sum256_take_four (data : List Nat) :
    ∃ b0 b1 b2 b3 : Nat, (Sum256 data).take 4 = [b0, b1, b2, b3] ∧
      b0 < 256 ∧ b1 < 256 ∧ b2 < 256 ∧ b3 < 256 := by
  simp only [Sum256]
  generalize List.foldl shaCompress sha256Init _ = s
  refine ⟨s.a / 2 ^ 24 % 256, s.a / 2 ^ 16 % 256, s.a / 2 ^ 8 % 256, s.a % 256, ?_, ?_, ?_, ?_, ?_⟩
  · simp [beBytes]
  all_goals omega

/-- C3. `sanitizeHostname`: the empty name and `Unknown` are returned as
they are; every other name gives `host-` followed by the `%x` rendering of the
first four bytes of the SHA-256 digest of the name's bytes, two zero-padded
lowercase hexadecimal digits per byte, so thirteen characters of which the last
eight are lowercase hexadecimal.  The result is a function of the name alone:
the definition reads nothing but its argument. -/
theorem sanitizeHostname_spec (h : String) :
    ((h = "" ∨ h = "Unknown") → sanitizeHostname h = h) ∧
    (h ≠ "" → h ≠ "Unknown" →
      ∃ b0 b1 b2 b3 : Nat,
        (Sum256 (bytesOf h)).length = 32 ∧
        (Sum256 (bytesOf h)).take 4 = [b0, b1, b2, b3] ∧
        b0 < 256 ∧ b1 < 256 ∧ b2 < 256 ∧ b3 < 256 ∧
        sanitizeHostname h = "host-" ++ String.mk
          [hexDigit (b0 / 16), hexDigit (b0 % 16), hexDigit (b1 / 16), hexDigit (b1 % 16),
           hexDigit (b2 / 16), hexDigit (b2 % 16), hexDigit (b3 / 16), hexDigit (b3 % 16)] ∧
        (sanitizeHostname h).length = 13 ∧
        (sanitizeHostname h).data.take 5 = "host-".data ∧
        (∀ c ∈ (sanitizeHostname h).data.drop 5, c ∈ "0123456789abcdef".data)) ∧
    (∀ h2 : String, h2 = h → sanitizeHostname h2 = sanitizeHostname h) := by
  refine ⟨?_, ?_, fun h2 e => by rw [e]⟩
  · intro hh
    simp [sanitizeHostname, hh]
  · intro h1 h2
    obtain ⟨b0, b1, b2, b3, ht, l0, l1, l2, l3⟩ := Sum256_take_four (bytesOf h)
    have hval : sanitizeHostname h = "host-" ++ String.mk
          [hexDigit (b0 / 16), hexDigit (b0 % 16), hexDigit (b1 / 16), hexDigit (b1 % 16),
           hexDigit (b2 / 16), hexDigit (b2 % 16), hexDigit (b3 / 16), hexDigit (b3 % 16)] := by
      simp [sanitizeHostname, h1, h2, ht, hexBytes]
    have hdata : (sanitizeHostname h).data = 'h' :: 'o' :: 's' :: 't' :: '-' ::
          [hexDigit (b0 / 16), hexDigit (b0 % 16), hexDigit (b1 / 16), hexDigit (b1 % 16),
           hexDigit (b2 / 16), hexDigit (b2 % 16), hexDigit (b3 / 16), hexDigit (b3 % 16)] := by
      rw [hval]
      rfl
    refine ⟨b0, b1, b2, b3, length_Sum256 _, ht, l0, l1, l2, l3, hval, ?_, ?_, ?_⟩
    · simp [String.length, hdata]
    · rw [hdata]
      rfl
    · rw [hdata]
      intro c hc
      simp only [List.drop_succ_cons, List.drop_zero, List.mem_cons, List.mem_singleton,
        List.not_mem_nil, or_false] at hc
      have d0 : b0 / 16 < 16 := by omega
      have d1 : b1 / 16 < 16 := by omega
      have d2 : b2 / 16 < 16 := by omega
      have d3 : b3 / 16 < 16 := by omega
      have m0 : b0 % 16 < 16 := by omega
      have m1 : b1 % 16 < 16 := by omega
      have m2 : b2 % 16 < 16 := by omega
      have m3 : b3 % 16 < 16 := by omega
      rcases hc with e | e | e | e | e | e | e | e <;> subst e <;>
        first
          | exact hexDigit_mem d0 | exact hexDigit_mem d1 | exact hexDigit_mem d2
          | exact hexDigit_mem d3 | exact hexDigit_mem m0 | exact hexDigit_mem m1
          | exact hexDigit_mem m2 | exact hexDigit_mem m3

/-- C3 at the host name of the specification's scenario and at `Unknown`. -/
theorem sanitizeHostname_spec_witness :
    sanitizeHostname "Unknown" = "Unknown" ∧
    ∃ b0 b1 b2 b3 : Nat,
      (Sum256 (bytesOf "srv1")).length = 32 ∧
      (Sum256 (bytesOf "srv1")).take 4 = [b0, b1, b2, b3] ∧
      b0 < 256 ∧ b1 < 256 ∧ b2 < 256 ∧ b3 < 256 ∧
      sanitizeHostname "srv1" = "host-" ++ String.mk
        [hexDigit (b0 / 16), hexDigit (b0 % 16), hexDigit (b1 / 16), hexDigit (b1 % 16),
         hexDigit (b2 / 16), hexDigit (b2 % 16), hexDigit (b3 / 16), hexDigit (b3 % 16)] ∧
      (sanitizeHostname "srv1").length = 13 ∧
      (sanitizeHostname "srv1").data.take 5 = "host-".data ∧
      (∀ c ∈ (sanitizeHostname "srv1").data.drop 5, c ∈ "0123456789abcdef".data) :=
  ⟨(sanitizeHostname_spec "Unknown").1 (Or.inr rfl),
   (sanitizeHostname_spec "srv1").2.1 (by decide) (by decide)⟩

/-! ## SanitizeHost -/

/-- C4. `SanitizeHost` replaces the address, the hardware address and the
host name by their masked forms and leaves the ports, the vendor, the OS guess
and the deep-scan findings as they were. -/
theorem SanitizeHost_spec (host : HostWithPorts) :
    (SanitizeHost host).IP = sanitizeIP host.IP ∧
    (SanitizeHost host).MAC = sanitizeMAC host.MAC ∧
    (SanitizeHost host).Hostname = sanitizeHostname host.Hostname ∧
    (SanitizeHost host).Ports = host.Ports ∧
    (SanitizeHost host).Vendor = host.Vendor ∧
    (SanitizeHost host).OS = host.OS ∧
    (SanitizeHost host).DeepPorts = host.DeepPorts :=
  ⟨rfl, rfl, rfl, rfl, rfl, rfl, rfl⟩

set_option maxRecDepth 100000 in
/-- The scenario of the specification: one host record, sanitized. -/
theorem SanitizeHost_scenario :
    SanitizeHost ⟨⟨"10.0.0.1", "AA:BB:CC:DD:EE:FF", "srv1", "", "", [22, 80]⟩, []⟩
      = ⟨⟨"10.0.0.x", "AA:BB:CC:XX:XX:XX", "host-841e1226", "", "", [22, 80]⟩, []⟩ := by
  decide

/-! ## Maps -/

theorem mapGet_mapSet {κ ν : Type} [DecidableEq κ] (m : List (κ × ν)) (k k' : κ) (v : ν) :
    mapGet (mapSet m k v) k' = if k = k' then some v else mapGet m k' := by
  induction m with
  | nil => simp [mapSet, mapGet]
  | cons kv m ih =>
    obtain ⟨a, b⟩ := kv
    by_cases hak : a = k
    · subst hak
      by_cases hk : a = k' <;> simp [mapSet, mapGet, hk]
    · by_cases hk : k = k'
      · subst hk
        simp [mapSet, mapGet, hak, ih]
      · by_cases hak' : a = k'
        · subst hak'
          simp [mapSet, mapGet, hak, hk]
        · simp [mapSet, mapGet, hak, hak', hk, ih]

theorem mapGet_eq_none_iff {κ ν : Type} [DecidableEq κ] (m : List (κ × ν)) (k : κ) :
    mapGet m k = none ↔ k ∉ mapKeys m := by
  induction m with
  | nil => simp [mapGet, mapKeys]
  | cons kv m ih =>
    obtain ⟨a, b⟩ := kv
    by_cases hak : a = k
    · simp [mapGet, mapKeys, hak]
    · have hka : ¬ k = a := fun e => hak e.symm
      simp only [mapKeys] at ih
      simp [mapGet, mapKeys, hak, hka, ih]

theorem mapKeys_mapSet {κ ν : Type} [DecidableEq κ] (m : List (κ × ν)) (k : κ) (v : ν) :
    mapKeys (mapSet m k v) = if k ∈ mapKeys m then mapKeys m else mapKeys m ++ [k] := by
  induction m with
  | nil => simp [mapSet, mapKeys]
  | cons kv m ih =>
    obtain ⟨a, b⟩ := kv
    by_cases hak : a = k
    · simp [mapSet, mapKeys, hak]
    · have hka : ¬ k = a := fun e => hak e.symm
      simp only [mapKeys] at ih
      by_cases hm : k ∈ List.map Prod.fst m
      · simp [mapSet, mapKeys, hak, hka, ih, hm]
      · simp [mapSet, mapKeys, hak, hka, ih, hm]

theorem nodup_mapKeys_mapSet {κ ν : Type} [DecidableEq κ] {m : List (κ × ν)}
    (h : (mapKeys m).Nodup) (k : κ) (v : ν) : (mapKeys (mapSet m k v)).Nodup := by
  rw [mapKeys_mapSet]
  split
  · exact h
  · rename_i hk
    rw [List.nodup_append]
    refine ⟨h, by simp, ?_⟩
    intro a ha hb
    simp at hb
    subst hb
    exact hk ha

theorem mem_iff_mapGet {κ ν : Type} [DecidableEq κ] {m : List (κ × ν)}
    (h : (mapKeys m).Nodup) (k : κ) (v : ν) : (k, v) ∈ m ↔ mapGet m k = some v := by
  induction m with
  | nil => simp [mapGet]
  | cons kv m ih =>
    obtain ⟨a, b⟩ := kv
    simp only [mapKeys, List.map_cons, List.nodup_cons] at h
    have ih2 := ih h.2
    by_cases hak : a = k
    · subst hak
      have : (a, v) ∉ m := fun hm => h.1 (List.mem_map.2 ⟨(a, v), hm, rfl⟩)
      simp only [mapGet, if_true, List.mem_cons, Prod.mk.injEq, true_and, Option.some.injEq]
      constructor
      · rintro (e | e)
        · exact e.symm
        · exact absurd e this
      · intro e
        exact Or.inl e.symm
    · have hka : ¬ k = a := fun e => hak e.symm
      simp [mapGet, hak, hka, ih2]

/-! ## The host loop, one variable at a time -/

theorem vulnStep_riskyMap (host : HostWithPorts) (t : Tally) (dp : DeepScanPort) :
    (vulnStep host t dp).riskyMap
      = if dp.Vulnerable then riskyStep t.riskyMap (host.IP, host.Hostname) else t.riskyMap := by
  unfold vulnStep riskyStep
  cases hv : dp.Vulnerable
  · simp
  · cases hg : mapGet t.riskyMap host.IP <;> simp only [if_true] <;> split <;>
      (try split) <;> simp [hg]

theorem vulnStep_portCounts (host : HostWithPorts) (t : Tally) (dp : DeepScanPort) :
    (vulnStep host t dp).portCounts = t.portCounts := by
  unfold vulnStep
  cases hv : dp.Vulnerable
  · simp
  · cases hg : mapGet t.riskyMap host.IP <;> simp only [if_true] <;> split <;>
      (try split) <;> simp

theorem vulnStep_portServices (host : HostWithPorts) (t : Tally) (dp : DeepScanPort) :
    (vulnStep host t dp).portServices = t.portServices := by
  unfold vulnStep
  cases hv : dp.Vulnerable
  · simp
  · cases hg : mapGet t.riskyMap host.IP <;> simp only [if_true] <;> split <;>
      (try split) <;> simp

theorem vulnStep_CriticalCount (host : HostWithPorts) (t : Tally) (dp : DeepScanPort) :
    (vulnStep host t dp).CriticalCount
      = t.CriticalCount + if dp.Vulnerable = true ∧ dp.Severity = "critical" then 1 else 0 := by
  unfold vulnStep
  cases hv : dp.Vulnerable
  · simp
  · cases hg : mapGet t.riskyMap host.IP <;> simp only [if_true] <;> split <;>
      (try split) <;> simp_all

theorem vulnStep_WarningCount (host : HostWithPorts) (t : Tally) (dp : DeepScanPort) :
    (vulnStep host t dp).WarningCount
      = t.WarningCount + if dp.Vulnerable = true ∧ dp.Severity = "warning" then 1 else 0 := by
  unfold vulnStep
  cases hv : dp.Vulnerable
  · simp
  · cases hg : mapGet t.riskyMap host.IP <;> simp only [if_true] <;> split <;>
      (try split) <;> simp_all

theorem deepStep_riskyMap (host : HostWithPorts) (t : Tally) (dp : DeepScanPort) :
    (deepStep host t dp).riskyMap
      = if dp.Vulnerable then riskyStep t.riskyMap (host.IP, host.Hostname) else t.riskyMap := by
  unfold deepStep
  simp only []
  split <;> simp [vulnStep_riskyMap]

theorem deepStep_portCounts (host : HostWithPorts) (t : Tally) (dp : DeepScanPort) :
    (deepStep host t dp).portCounts = countPort t.portCounts dp.Port := by
  unfold deepStep
  simp only []
  split <;> simp [vulnStep_portCounts]

theorem deepStep_CriticalCount (host : HostWithPorts) (t : Tally) (dp : DeepScanPort) :
    (deepStep host t dp).CriticalCount
      = t.CriticalCount + if dp.Vulnerable = true ∧ dp.Severity = "critical" then 1 else 0 := by
  unfold deepStep
  simp only []
  split <;> simp [vulnStep_CriticalCount]

theorem deepStep_WarningCount (host : HostWithPorts) (t : Tally) (dp : DeepScanPort) :
    (deepStep host t dp).WarningCount
      = t.WarningCount + if dp.Vulnerable = true ∧ dp.Severity = "warning" then 1 else 0 := by
  unfold deepStep
  simp only []
  split <;> simp [vulnStep_WarningCount]

theorem foldl_deepStep_riskyMap (host : HostWithPorts) (dps : List DeepScanPort) (t : Tally) :
    (dps.foldl (deepStep host) t).riskyMap
      = ((dps.filter (fun dp => dp.Vulnerable)).map (fun _ => (host.IP, host.Hostname))).foldl
          riskyStep t.riskyMap := by
  induction dps generalizing t with
  | nil => rfl
  | cons dp dps ih =>
    rw [List.foldl_cons, ih, deepStep_riskyMap]
    cases hv : dp.Vulnerable <;> simp [List.filter_cons, hv]

theorem foldl_deepStep_portCounts (host : HostWithPorts) (dps : List DeepScanPort) (t : Tally) :
    (dps.foldl (deepStep host) t).portCounts
      = (dps.map (fun dp => dp.Port)).foldl countPort t.portCounts := by
  induction dps generalizing t with
  | nil => rfl
  | cons dp dps ih =>
    rw [List.foldl_cons, ih, deepStep_portCounts]
    simp

theorem foldl_deepStep_CriticalCount (host : HostWithPorts) (dps : List DeepScanPort) (t : Tally) :
    (dps.foldl (deepStep host) t).CriticalCount
      = t.CriticalCount
          + dps.countP (fun dp => dp.Vulnerable && decide (dp.Severity = "critical")) := by
  induction dps generalizing t with
  | nil => rfl
  | cons dp dps ih =>
    rw [List.foldl_cons, ih, deepStep_CriticalCount, List.countP_cons]
    by_cases h : dp.Vulnerable = true ∧ dp.Severity = "critical"
    · simp [h]
      omega
    · have h2 : ¬ (dp.Vulnerable = true ∧ dp.Severity = "critical") := h
      simp only [h, if_false]
      have : (dp.Vulnerable && decide (dp.Severity = "critical")) = false := by
        simpa using h2
      simp [this]

theorem foldl_deepStep_WarningCount (host : HostWithPorts) (dps : List DeepScanPort) (t : Tally) :
    (dps.foldl (deepStep host) t).WarningCount
      = t.WarningCount
          + dps.countP (fun dp => dp.Vulnerable && decide (dp.Severity = "warning")) := by
  induction dps generalizing t with
  | nil => rfl
  | cons dp dps ih =>
    rw [List.foldl_cons, ih, deepStep_WarningCount, List.countP_cons]
    by_cases h : dp.Vulnerable = true ∧ dp.Severity = "warning"
    · simp [h]
      omega
    · have h2 : ¬ (dp.Vulnerable = true ∧ dp.Severity = "warning") := h
      simp only [h, if_false]
      have : (dp.Vulnerable && decide (dp.Severity = "warning")) = false := by
        simpa using h2
      simp [this]

theorem foldl_hostStep_riskyMap (hosts : List HostWithPorts) (t : Tally) :
    (hosts.foldl hostStep t).riskyMap = (vulnEvents hosts).foldl riskyStep t.riskyMap := by
  induction hosts generalizing t with
  | nil => rfl
  | cons h hosts ih =>
    rw [List.foldl_cons, ih]
    simp [hostStep, foldl_deepStep_riskyMap, vulnEvents, List.foldl_append]

theorem foldl_hostStep_portCounts (hosts : List HostWithPorts) (t : Tally) :
    (hosts.foldl hostStep t).portCounts = (portEvents hosts).foldl countPort t.portCounts := by
  induction hosts generalizing t with
  | nil => rfl
  | cons h hosts ih =>
    rw [List.foldl_cons, ih]
    simp [hostStep, foldl_deepStep_portCounts, portEvents, List.foldl_append]

theorem foldl_hostStep_CriticalCount (hosts : List HostWithPorts) (t : Tally) :
    (hosts.foldl hostStep t).CriticalCount
      = t.CriticalCount + (allDeepPorts hosts).countP
          (fun dp => dp.Vulnerable && decide (dp.Severity = "critical")) := by
  induction hosts generalizing t with
  | nil => rfl
  | cons h hosts ih =>
    rw [List.foldl_cons, ih]
    simp [hostStep, foldl_deepStep_CriticalCount, allDeepPorts, List.countP_append]
    omega

theorem foldl_hostStep_WarningCount (hosts : List HostWithPorts) (t : Tally) :
    (hosts.foldl hostStep t).WarningCount
      = t.WarningCount + (allDeepPorts hosts).countP
          (fun dp => dp.Vulnerable && decide (dp.Severity = "warning")) := by
  induction hosts generalizing t with
  | nil => rfl
  | cons h hosts ih =>
    rw [List.foldl_cons, ih]
    simp [hostStep, foldl_deepStep_WarningCount, allDeepPorts, List.countP_append]
    omega

/-! ## The fields of the summary -/

theorem GenerateSummary_TotalHosts (rt : GoRuntime) (hosts : List HostWithPorts)
    (baseline : Option DiffResult) :
    (GenerateSummary rt hosts baseline).TotalHosts = hosts.length := by
  cases baseline <;> rfl

theorem GenerateSummary_TotalPorts (rt : GoRuntime) (hosts : List HostWithPorts)
    (baseline : Option DiffResult) :
    (GenerateSummary rt hosts baseline).TotalPorts
      = hosts.foldl (fun n host => n + host.Ports.length) 0 := by
  cases baseline <;> rfl

theorem GenerateSummary_CriticalCount (rt : GoRuntime) (hosts : List HostWithPorts)
    (baseline : Option DiffResult) :
    (GenerateSummary rt hosts baseline).CriticalCount = (tally hosts).CriticalCount := by
  cases baseline <;> rfl

theorem GenerateSummary_WarningCount (rt : GoRuntime) (hosts : List HostWithPorts)
    (baseline : Option DiffResult) :
    (GenerateSummary rt hosts baseline).WarningCount = (tally hosts).WarningCount := by
  cases baseline <;> rfl

theorem GenerateSummary_RiskyHosts_eq (rt : GoRuntime) (hosts : List HostWithPorts)
    (baseline : Option DiffResult) :
    (GenerateSummary rt hosts baseline).RiskyHosts
      = limitTo 10 (sortSlice rt riskyLess (collectRisky rt (tally hosts).riskyMap none)) := by
  cases baseline <;> rfl

theorem GenerateSummary_ExposedPorts_eq (rt : GoRuntime) (hosts : List HostWithPorts)
    (baseline : Option DiffResult) :
    (GenerateSummary rt hosts baseline).ExposedPorts
      = sortSlice rt exposedLess
          (collectExposed rt (tally hosts).portCounts (tally hosts).portServices none) := by
  cases baseline <;> rfl

theorem sortSlice_nil (rt : GoRuntime) {α : Type} (less : α → α → Bool) :
    rt.sortSlice less [] = [] :=
  List.Perm.eq_nil (rt.sortSlice_perm less [])

theorem elems_sortSlice (rt : GoRuntime) {α : Type} (less : α → α → Bool) (s : Slice α) :
    (sortSlice rt less s).elems = rt.sortSlice less s.elems := by
  cases s with
  | none => simp [sortSlice, Slice.elems, sortSlice_nil]
  | some l => simp [sortSlice, Slice.elems]

theorem elems_limitTo {α : Type} (n : Nat) (s : Slice α) :
    (limitTo n s).elems = s.elems.take n := by
  unfold limitTo
  split
  · rfl
  · rename_i h
    rw [List.take_of_length_le (by omega)]

theorem elems_foldl_push {α β : Type} (f : β → α) (l : List β) (s : Slice α) :
    (l.foldl (fun s x => s.push (f x)) s).elems = s.elems ++ l.map f := by
  induction l generalizing s with
  | nil => simp
  | cons x l ih =>
    rw [List.foldl_cons, ih]
    simp [Slice.push, Slice.elems]

theorem elems_collectRisky (rt : GoRuntime) (m : List (String × RiskyHost)) :
    (collectRisky rt m none).elems = (rt.mapRange m).map Prod.snd := by
  unfold collectRisky
  rw [elems_foldl_push (fun kv : String × RiskyHost => kv.2)]
  rfl

/-- The risky hosts of the summary: the values of the map in the order `range`
visits them, sorted, cut to ten. -/
theorem GenerateSummary_RiskyHosts (rt : GoRuntime) (hosts : List HostWithPorts)
    (baseline : Option DiffResult) :
    (GenerateSummary rt hosts baseline).RiskyHosts.elems
      = (rt.sortSlice riskyLess ((rt.mapRange (tally hosts).riskyMap).map Prod.snd)).take 10 := by
  rw [GenerateSummary_RiskyHosts_eq, elems_limitTo, elems_sortSlice, elems_collectRisky]

/-! ## Totals and severity counters -/

theorem foldl_add_length (hosts : List HostWithPorts) (n : Nat) :
    hosts.foldl (fun n host => n + host.Ports.length) n
      = n + (hosts.map (fun h => h.Ports.length)).sum := by
  induction hosts generalizing n with
  | nil => simp
  | cons h hosts ih =>
    rw [List.foldl_cons, ih]
    simp
    omega

/-- C5. `GenerateSummary`, for every host collection and every baseline
(absent or not): `TotalHosts` is the number of host records and `TotalPorts` is
the sum of the lengths of the basic port lists; the deep-scan findings do not
count (erasing them all leaves `TotalPorts` as it is), and the empty collection
gives 0 for both. -/
theorem GenerateSummary_totals (rt : GoRuntime) (hosts : List HostWithPorts)
    (baseline : Option DiffResult) :
    (GenerateSummary rt hosts baseline).TotalHosts = hosts.length ∧
    (GenerateSummary rt hosts baseline).TotalPorts = (hosts.map (fun h => h.Ports.length)).sum ∧
    (GenerateSummary rt (hosts.map (fun h => { h with DeepPorts := [] })) baseline).TotalPorts
      = (GenerateSummary rt hosts baseline).TotalPorts ∧
    (GenerateSummary rt [] baseline).TotalHosts = 0 ∧
    (GenerateSummary rt [] baseline).TotalPorts = 0 := by
  refine ⟨GenerateSummary_TotalHosts rt hosts baseline, ?_, ?_, ?_, ?_⟩
  · rw [GenerateSummary_TotalPorts, foldl_add_length]
    simp
  · rw [GenerateSummary_TotalPorts, GenerateSummary_TotalPorts, foldl_add_length,
      foldl_add_length]
    simp [Function.comp_def]
  · rw [GenerateSummary_TotalHosts]
    rfl
  · rw [GenerateSummary_TotalPorts]
    rfl

theorem countP_add_le_of_disjoint {α : Type} (p q r : α → Bool) (l : List α)
    (hpq : ∀ x, p x = true → q x = false) (hp : ∀ x, p x = true → r x = true)
    (hq : ∀ x, q x = true → r x = true) :
    l.countP p + l.countP q ≤ l.countP r := by
  induction l with
  | nil => simp
  | cons x l ih =>
    simp only [List.countP_cons]
    cases hpx : p x
    · cases hqx : q x
      · simp
        omega
      · have := hq x hqx
        simp [this]
        omega
    · have h1 := hpq x hpx
      have h2 := hp x hpx
      simp [h1, h2]
      omega

/-- C10. `GenerateSummary`: `CriticalCount` is the number of deep-scan
findings flagged vulnerable whose severity is exactly `critical`,
`WarningCount` the number flagged vulnerable whose severity is exactly
`warning`; findings of another severity or not flagged vulnerable count in
neither, so the two counters together do not exceed the number of vulnerable
findings. -/
theorem GenerateSummary_severity (rt : GoRuntime) (hosts : List HostWithPorts)
    (baseline : Option DiffResult) :
    (GenerateSummary rt hosts baseline).CriticalCount
      = (allDeepPorts hosts).countP
          (fun dp => dp.Vulnerable && decide (dp.Severity = "critical")) ∧
    (GenerateSummary rt hosts baseline).WarningCount
      = (allDeepPorts hosts).countP
          (fun dp => dp.Vulnerable && decide (dp.Severity = "warning")) ∧
    (GenerateSummary rt hosts baseline).CriticalCount
        + (GenerateSummary rt hosts baseline).WarningCount
      ≤ (allDeepPorts hosts).countP (fun dp => dp.Vulnerable) := by
  have hc : (GenerateSummary rt hosts baseline).CriticalCount
      = (allDeepPorts hosts).countP
          (fun dp => dp.Vulnerable && decide (dp.Severity = "critical")) := by
    rw [GenerateSummary_CriticalCount, tally, foldl_hostStep_CriticalCount]
    simp
  have hw : (GenerateSummary rt hosts baseline).WarningCount
      = (allDeepPorts hosts).countP
          (fun dp => dp.Vulnerable && decide (dp.Severity = "warning")) := by
    rw [GenerateSummary_WarningCount, tally, foldl_hostStep_WarningCount]
    simp
  refine ⟨hc, hw, ?_⟩
  rw [hc, hw]
  apply countP_add_le_of_disjoint
  · intro dp h
    simp only [Bool.and_eq_true, decide_eq_true_eq] at h
    simp [h.2]
  · intro dp h
    simp only [Bool.and_eq_true, decide_eq_true_eq] at h
    exact h.1
  · intro dp h
    simp only [Bool.and_eq_true, decide_eq_true_eq] at h
    exact h.1

/-! ## The risky-host map -/

theorem mapGet_riskyStep (m : List (String × RiskyHost)) (e : String × String) (ip : String) :
    mapGet (riskyStep m e) ip
      = if e.1 = ip then
          (match mapGet m ip with
            | some rh => some { rh with VulnCount := rh.VulnCount + 1 }
            | none => some { IP := ip, Hostname := e.2, VulnCount := 1 })
        else mapGet m ip := by
  unfold riskyStep
  by_cases h : e.1 = ip
  · subst h
    cases hg : mapGet m e.1 <;> simp [mapGet_mapSet]
  · cases hg : mapGet m e.1 <;> simp [mapGet_mapSet, h]

/-- What the map holds for an address after a run of vulnerable findings. -/
theorem mapGet_foldl_riskyStep (es : List (String × String)) (m : List (String × RiskyHost))
    (ip : String) :
    mapGet (es.foldl riskyStep m) ip
      = match mapGet m ip with
        | some rh => some { rh with VulnCount := rh.VulnCount + eventCount es ip }
        | none => (es.find? (fun e => decide (e.1 = ip))).map
            (fun e => { IP := ip, Hostname := e.2, VulnCount := eventCount es ip }) := by
  induction es generalizing m with
  | nil =>
    simp only [List.foldl_nil]
    cases hg : mapGet m ip <;> simp [eventCount]
  | cons e es ih =>
    rw [List.foldl_cons, ih, mapGet_riskyStep]
    by_cases h : e.1 = ip
    · cases hg : mapGet m ip
      · simp [h, eventCount, List.find?_cons]
        omega
      · simp [h, eventCount]
        omega
    · cases hg : mapGet m ip
      · simp [h, eventCount, List.find?_cons]
      · simp [h, eventCount]

theorem nodup_mapKeys_foldl_riskyStep (es : List (String × String))
    (m : List (String × RiskyHost)) (h : (mapKeys m).Nodup) :
    (mapKeys (es.foldl riskyStep m)).Nodup := by
  induction es generalizing m with
  | nil => exact h
  | cons e es ih =>
    rw [List.foldl_cons]
    apply ih
    unfold riskyStep
    split <;> exact nodup_mapKeys_mapSet h _ _

/-! ## From findings to host records -/

theorem countP_map_const {α β : Type} (p : β → Bool) (c : β) (l : List α) :
    (l.map (fun _ => c)).countP p = if p c = true then l.length else 0 := by
  induction l with
  | nil => simp
  | cons x l ih =>
    simp only [List.map_cons, List.countP_cons, ih]
    cases p c <;> simp

theorem find?_map_const {α β : Type} (p : β → Bool) (c : β) (l : List α) :
    (l.map (fun _ => c)).find? p = if p c = true ∧ 0 < l.length then some c else none := by
  induction l with
  | nil => simp
  | cons x l ih =>
    simp only [List.map_cons, List.find?_cons, ih]
    cases h : p c <;> simp

theorem vulnEvents_cons (h : HostWithPorts) (hosts : List HostWithPorts) :
    vulnEvents (h :: hosts)
      = (h.DeepPorts.filter (fun dp => dp.Vulnerable)).map (fun _ => (h.IP, h.Hostname))
          ++ vulnEvents hosts := by
  simp [vulnEvents]

/-- The findings recorded for an address are the vulnerable findings of the
records with that address. -/
theorem eventCount_vulnEvents (hosts : List HostWithPorts) (ip : String) :
    eventCount (vulnEvents hosts) ip = vulnTotal hosts ip := by
  induction hosts with
  | nil => rfl
  | cons h hosts ih =>
    unfold eventCount at ih ⊢
    rw [vulnEvents_cons, List.countP_append, ih, countP_map_const]
    unfold vulnTotal
    by_cases hip : h.IP = ip
    · simp [List.filter_cons, hip, vulnFindings]
    · simp [List.filter_cons, hip]

/-- The first finding recorded for an address belongs to the first record
with that address that has a vulnerable finding. -/
theorem find?_vulnEvents (hosts : List HostWithPorts) (ip : String) :
    (vulnEvents hosts).find? (fun e => decide (e.1 = ip))
      = (firstVulnerable hosts ip).map (fun h => (h.IP, h.Hostname)) := by
  induction hosts with
  | nil => rfl
  | cons h hosts ih =>
    rw [vulnEvents_cons, List.find?_append, ih, find?_map_const]
    unfold firstVulnerable
    by_cases hip : h.IP = ip
    · by_cases hv : 0 < vulnFindings h
      · have hv2 : 0 < (h.DeepPorts.filter (fun dp => dp.Vulnerable)).length := hv
        simp [List.find?_cons, hip, hv, hv2]
      · have hv2 : ¬ 0 < (h.DeepPorts.filter (fun dp => dp.Vulnerable)).length := hv
        simp [List.find?_cons, hip, hv, hv2]
    · simp [List.find?_cons, hip]

theorem firstVulnerable_some {hosts : List HostWithPorts} {ip : String} {h : HostWithPorts}
    (hf : firstVulnerable hosts ip = some h) : h ∈ hosts ∧ h.IP = ip ∧ 0 < vulnFindings h := by
  unfold firstVulnerable at hf
  have h1 := List.find?_some hf
  have h2 := List.mem_of_find?_eq_some hf
  simp only [Bool.and_eq_true, decide_eq_true_eq] at h1
  exact ⟨h2, h1.1, h1.2⟩

/-- The risky-host map after the host loop, read at one address. -/
theorem mapGet_tally_riskyMap (hosts : List HostWithPorts) (ip : String) :
    mapGet (tally hosts).riskyMap ip
      = (firstVulnerable hosts ip).map
          (fun h => { IP := ip, Hostname := h.Hostname, VulnCount := vulnTotal hosts ip }) := by
  unfold tally
  rw [foldl_hostStep_riskyMap, mapGet_foldl_riskyStep]
  simp only [mapGet, find?_vulnEvents, eventCount_vulnEvents]
  cases firstVulnerable hosts ip <;> simp

theorem nodup_mapKeys_tally_riskyMap (hosts : List HostWithPorts) :
    (mapKeys (tally hosts).riskyMap).Nodup := by
  unfold tally
  rw [foldl_hostStep_riskyMap]
  exact nodup_mapKeys_foldl_riskyStep _ _ (by simp [mapKeys])

/-! ## The risky hosts of the summary -/

theorem vulnFindings_le_vulnTotal {hosts : List HostWithPorts} {h : HostWithPorts}
    (hm : h ∈ hosts) : vulnFindings h ≤ vulnTotal hosts h.IP := by
  unfold vulnTotal
  apply List.single_le_sum (fun _ _ => Nat.zero_le _)
  exact List.mem_map.2 ⟨h, List.mem_filter.2 ⟨hm, by simp⟩, rfl⟩

/-- Every entry of `RiskyHosts` is a value of the risky-host map. -/
theorem mem_RiskyHosts {rt : GoRuntime} {hosts : List HostWithPorts}
    {baseline : Option DiffResult} {e : RiskyHost}
    (he : e ∈ (GenerateSummary rt hosts baseline).RiskyHosts.elems) :
    ∃ h, firstVulnerable hosts e.IP = some h ∧ e.Hostname = h.Hostname ∧
      e.VulnCount = vulnTotal hosts e.IP := by
  rw [GenerateSummary_RiskyHosts] at he
  have h1 := List.mem_of_mem_take he
  have h2 := (rt.sortSlice_perm riskyLess _).mem_iff.1 h1
  obtain ⟨⟨k, v⟩, hkv, hv⟩ := List.mem_map.1 h2
  simp only at hv
  subst hv
  have h3 := (rt.mapRange_perm (tally hosts).riskyMap).mem_iff.1 hkv
  have h4 := (mem_iff_mapGet (nodup_mapKeys_tally_riskyMap hosts) k v).1 h3
  rw [mapGet_tally_riskyMap] at h4
  cases hf : firstVulnerable hosts k with
  | none => simp [hf] at h4
  | some h =>
    simp only [hf, Option.map_some', Option.some.injEq] at h4
    subst h4
    exact ⟨h, hf, rfl, rfl⟩

theorem mem_mapKeys_tally_riskyMap (hosts : List HostWithPorts) (ip : String) :
    ip ∈ mapKeys (tally hosts).riskyMap ↔ ip ∈ vulnerableAddrs hosts := by
  have h1 := mapGet_eq_none_iff (tally hosts).riskyMap ip
  rw [mapGet_tally_riskyMap] at h1
  unfold vulnerableAddrs
  rw [List.mem_dedup, List.mem_map]
  constructor
  · intro hk
    cases hf : firstVulnerable hosts ip with
    | none =>
      rw [hf] at h1
      exact absurd hk (h1.1 rfl)
    | some h =>
      obtain ⟨hm, hip, hv⟩ := firstVulnerable_some hf
      exact ⟨h, List.mem_filter.2 ⟨hm, by simpa using hv⟩, hip⟩
  · rintro ⟨h, hm, hip⟩
    obtain ⟨hm1, hv⟩ := List.mem_filter.1 hm
    by_contra hk
    have hnone := h1.2 hk
    simp only [Option.map_eq_none'] at hnone
    unfold firstVulnerable at hnone
    have := List.find?_eq_none.1 hnone h hm1
    simp at hv
    simp [hip, hv] at this

/-- The risky-host map has one entry per distinct vulnerable address. -/
theorem length_tally_riskyMap (hosts : List HostWithPorts) :
    (tally hosts).riskyMap.length = (vulnerableAddrs hosts).length := by
  have hperm : (mapKeys (tally hosts).riskyMap).Perm (vulnerableAddrs hosts) :=
    (List.perm_ext_iff_of_nodup (nodup_mapKeys_tally_riskyMap hosts)
      (by unfold vulnerableAddrs; exact List.nodup_dedup _)).2
      (fun ip => mem_mapKeys_tally_riskyMap hosts ip)
  have := hperm.length_eq
  simpa [mapKeys] using this

/-- C7. `GenerateSummary`: `RiskyHosts` has `min 10 d` entries, `d` being
the number of distinct host addresses with at least one deep-scan finding
flagged vulnerable; so it never has more than ten. -/
theorem GenerateSummary_riskyHosts_length (rt : GoRuntime) (hosts : List HostWithPorts)
    (baseline : Option DiffResult) :
    (GenerateSummary rt hosts baseline).RiskyHosts.elems.length
        = min 10 (vulnerableAddrs hosts).length ∧
    (GenerateSummary rt hosts baseline).RiskyHosts.elems.length ≤ 10 := by
  have h : (GenerateSummary rt hosts baseline).RiskyHosts.elems.length
        = min 10 (vulnerableAddrs hosts).length := by
    rw [GenerateSummary_RiskyHosts, List.length_take, (rt.sortSlice_perm riskyLess _).length_eq,
      List.length_map, (rt.mapRange_perm _).length_eq, length_tally_riskyMap]
  exact ⟨h, by rw [h]; exact Nat.min_le_left _ _⟩

theorem strictWeakOrder_riskyLess : StrictWeakOrder riskyLess := by
  refine ⟨?_, ?_, ?_⟩
  · intro x
    simp [riskyLess]
  · intro x y z hxy hyz
    simp only [riskyLess, decide_eq_true_eq] at *
    omega
  · intro x y z hxy hyz
    simp only [riskyLess, decide_eq_false_iff_not] at *
    omega

theorem pairwise_RiskyHosts (rt : GoRuntime) (hosts : List HostWithPorts)
    (baseline : Option DiffResult) :
    (GenerateSummary rt hosts baseline).RiskyHosts.elems.Pairwise
      (fun x y => y.VulnCount ≤ x.VulnCount) := by
  rw [GenerateSummary_RiskyHosts]
  have h := rt.sortSlice_sorted riskyLess
    ((rt.mapRange (tally hosts).riskyMap).map Prod.snd) strictWeakOrder_riskyLess
  have h2 := h.sublist (List.take_sublist 10 _)
  refine h2.imp ?_
  intro x y hxy
  simp only [riskyLess, decide_eq_false_iff_not] at hxy
  omega

/-- C8. `GenerateSummary`, whatever order the map is visited in and whatever
permutation the sort produces: `RiskyHosts` is sorted by non-increasing
`VulnCount`, i.e. the entry at index `i` has at least the count of the entry at
any later index `j`. -/
theorem GenerateSummary_riskyHosts_sorted (rt : GoRuntime) (hosts : List HostWithPorts)
    (baseline : Option DiffResult)
    (i j : Fin (GenerateSummary rt hosts baseline).RiskyHosts.elems.length) (hij : i < j) :
    ((GenerateSummary rt hosts baseline).RiskyHosts.elems.get j).VulnCount
      ≤ ((GenerateSummary rt hosts baseline).RiskyHosts.elems.get i).VulnCount :=
  List.pairwise_iff_get.1 (pairwise_RiskyHosts rt hosts baseline) i j hij

/-- C9. `GenerateSummary`: every entry of `RiskyHosts` carries the address
of a host record; its `VulnCount` is at least 1 and is the number of findings
flagged vulnerable over all records with that address; its `Hostname` is the
host name of the first record, in collection order, that has this address and
a vulnerable finding; and an address none of whose records has a vulnerable
finding has no entry. -/
theorem GenerateSummary_riskyHosts_entries (rt : GoRuntime) (hosts : List HostWithPorts)
    (baseline : Option DiffResult) (e : RiskyHost)
    (he : e ∈ (GenerateSummary rt hosts baseline).RiskyHosts.elems) :
    (∃ h ∈ hosts, h.IP = e.IP) ∧
    1 ≤ e.VulnCount ∧
    e.VulnCount = vulnTotal hosts e.IP ∧
    (∃ h, firstVulnerable hosts e.IP = some h ∧ e.Hostname = h.Hostname) ∧
    (∀ ip, vulnTotal hosts ip = 0 → e.IP ≠ ip) := by
  obtain ⟨h, hf, hn, hc⟩ := mem_RiskyHosts he
  obtain ⟨hm, hip, hv⟩ := firstVulnerable_some hf
  have hle := vulnFindings_le_vulnTotal hm
  rw [hip] at hle
  refine ⟨⟨h, hm, hip⟩, by omega, hc, ⟨h, hf, hn⟩, ?_⟩
  intro ip h0 e2
  subst e2
  omega

/-- C8 on the collection of the test suite, the map visited in reverse
insertion order: the entry with two findings comes first. -/
theorem GenerateSummary_riskyHosts_sorted_witness :
    ((⟨0, by decide⟩ : Fin (GenerateSummary revRuntime riskyExample none).RiskyHosts.elems.length)
        < ⟨1, by decide⟩) ∧
    ((GenerateSummary revRuntime riskyExample none).RiskyHosts.elems.get ⟨1, by decide⟩).VulnCount
      ≤ ((GenerateSummary revRuntime riskyExample none).RiskyHosts.elems.get
          ⟨0, by decide⟩).VulnCount :=
  ⟨by decide,
   GenerateSummary_riskyHosts_sorted revRuntime riskyExample none ⟨0, by decide⟩ ⟨1, by decide⟩
     (by decide)⟩

/-- C9 on the collection of the test suite, at the entry of the first
address. -/
theorem GenerateSummary_riskyHosts_entries_witness :
    (⟨"10.0.0.1", "srv1", 2⟩ : RiskyHost)
        ∈ (GenerateSummary stdRuntime riskyExample none).RiskyHosts.elems ∧
    ((∃ h ∈ riskyExample, h.IP = "10.0.0.1") ∧
      1 ≤ 2 ∧
      2 = vulnTotal riskyExample "10.0.0.1" ∧
      (∃ h, firstVulnerable riskyExample "10.0.0.1" = some h ∧ "srv1" = h.Hostname) ∧
      (∀ ip, vulnTotal riskyExample ip = 0 → "10.0.0.1" ≠ ip)) :=
  ⟨by decide,
   GenerateSummary_riskyHosts_entries stdRuntime riskyExample none ⟨"10.0.0.1", "srv1", 2⟩
     (by decide)⟩

/-- The summary of the test collection under the two runtimes. -/
theorem GenerateSummary_riskyExample :
    GenerateSummary stdRuntime riskyExample none
      = { TotalHosts := 2, TotalPorts := 0, CriticalCount := 2, WarningCount := 1,
          RiskyHosts := some [⟨"10.0.0.1", "srv1", 2⟩, ⟨"10.0.0.2", "srv2", 1⟩],
          ExposedPorts := none, NewExposures := none } ∧
    GenerateSummary revRuntime riskyExample none
      = GenerateSummary stdRuntime riskyExample none := by
  decide

set_option maxRecDepth 100000 in
/-- Fifteen vulnerable addresses: ten entries are kept, and port 22, found
fifteen times, is the one exposed port. -/
theorem GenerateSummary_cappedExample :
    (vulnerableAddrs cappedExample).length = 15 ∧
    (GenerateSummary stdRuntime cappedExample none).RiskyHosts.elems.length = 10 ∧
    (GenerateSummary stdRuntime cappedExample none).CriticalCount = 15 ∧
    (GenerateSummary stdRuntime cappedExample none).ExposedPorts = some [⟨22, "SSH", 15⟩] := by
  decide

/-- Severities other than `critical` and `warning`, and findings that are
not flagged, move neither counter. -/
theorem GenerateSummary_severityExample :
    (GenerateSummary stdRuntime severityExample none).CriticalCount = 0 ∧
    (GenerateSummary stdRuntime severityExample none).WarningCount = 0 ∧
    (GenerateSummary stdRuntime severityExample none).RiskyHosts
      = some [⟨"10.0.0.1", "srv1", 3⟩] := by
  decide

/-- The scenario of the specification: port 22 on three hosts, port 80 on two
of them. -/
theorem GenerateSummary_exposedExample :
    (GenerateSummary stdRuntime exposedExample none).ExposedPorts = some [⟨22, "SSH", 3⟩] ∧
    (GenerateSummary stdRuntime exposedExample none).TotalPorts = 6 := by
  decide

/-! ## Ports counted per occurrence -/

theorem mapRange_singleton (rt : GoRuntime) {κ ν : Type} (kv : κ × ν) :
    rt.mapRange [kv] = [kv] :=
  List.perm_singleton.1 (rt.mapRange_perm [kv])

theorem sortSlice_singleton (rt : GoRuntime) {α : Type} (less : α → α → Bool) (x : α) :
    rt.sortSlice less [x] = [x] :=
  List.perm_singleton.1 (rt.sortSlice_perm less [x])

/-- C6, the code at two hosts that both have port 22 open, one of them with
a deep-scan finding for it: the port is observed on two hosts, yet under every
runtime `ExposedPorts` lists it, with `Count` 3. -/
theorem GenerateSummary_exposed_two_hosts (rt : GoRuntime) :
    twoHostsExample.length = 2 ∧
    hostsObserving twoHostsExample 22 = 2 ∧
    (GenerateSummary rt twoHostsExample none).ExposedPorts = some [⟨22, "ssh", 3⟩] := by
  refine ⟨rfl, by decide, ?_⟩
  have ht : (tally twoHostsExample).portCounts = [(22, 3)] := by decide
  have hs : (tally twoHostsExample).portServices = [(22, "ssh")] := by decide
  rw [GenerateSummary_ExposedPorts_eq, ht, hs]
  unfold collectExposed
  rw [mapRange_singleton]
  have hstep : List.foldl (exposeStep [(22, "ssh")]) none [((22 : Nat), (3 : Nat))]
      = some [⟨22, "ssh", 3⟩] := by decide
  rw [hstep]
  simp only [sortSlice, Option.map_some', sortSlice_singleton]

/-! ## New exposures -/

theorem elems_collectNew (b : DiffResult) (s : Slice NewExposure) :
    (collectNew b s).elems = s.elems ++ addedPairs b := by
  unfold collectNew addedPairs
  generalize b.PortChanges = pcs
  induction pcs generalizing s with
  | nil => simp
  | cons pc pcs ih =>
    rw [List.foldl_cons, ih, elems_foldl_push (fun port => (⟨pc.IP, port⟩ : NewExposure))]
    simp

theorem length_addedPairs (b : DiffResult) :
    (addedPairs b).length = (b.PortChanges.map (fun pc => pc.AddedPorts.length)).sum := by
  unfold addedPairs
  generalize b.PortChanges = pcs
  induction pcs with
  | nil => rfl
  | cons pc pcs ih => simp [ih]

/-- C12. `GenerateSummary` with a baseline: `NewExposures` is, for the port
changes in order and for each its added ports in order, the pair of the
change's address and the port; its length is the sum of the lengths of the
added-port lists; the host collection and the removed ports have no influence
on it. -/
theorem GenerateSummary_newExposures (rt : GoRuntime) (hosts : List HostWithPorts)
    (b : DiffResult) :
    (GenerateSummary rt hosts (some b)).NewExposures.elems
      = b.PortChanges.flatMap (fun pc => pc.AddedPorts.map (fun port => ⟨pc.IP, port⟩)) ∧
    (GenerateSummary rt hosts (some b)).NewExposures.elems.length
      = (b.PortChanges.map (fun pc => pc.AddedPorts.length)).sum ∧
    (∀ (rt2 : GoRuntime) (hosts2 : List HostWithPorts),
      (GenerateSummary rt2 hosts2 (some b)).NewExposures
        = (GenerateSummary rt hosts (some b)).NewExposures) ∧
    (GenerateSummary rt hosts (some (dropRemoved b))).NewExposures.elems
      = (GenerateSummary rt hosts (some b)).NewExposures.elems := by
  have h : ∀ b : DiffResult,
      (GenerateSummary rt hosts (some b)).NewExposures.elems = addedPairs b := by
    intro b
    have : (GenerateSummary rt hosts (some b)).NewExposures = collectNew b none := rfl
    rw [this, elems_collectNew]
    rfl
  refine ⟨h b, ?_, fun _ _ => rfl, ?_⟩
  · rw [h, length_addedPairs]
  · rw [h, h]
    simp [addedPairs, dropRemoved, List.flatMap_map]

/-- The baseline of the test suite: three new exposures, in the order of
the diff, also when no host is given. -/
theorem GenerateSummary_baselineExample :
    (GenerateSummary stdRuntime [] (some baselineExample)).NewExposures
      = some [⟨"10.0.0.1", 8080⟩, ⟨"10.0.0.1", 9090⟩, ⟨"10.0.0.2", 3306⟩] := by
  decide

/-- C13. `GenerateSummary` without a baseline: `NewExposures` is the nil
slice, not an allocated empty one, for every host collection. -/
theorem GenerateSummary_nil_baseline (rt : GoRuntime) (hosts : List HostWithPorts) :
    (GenerateSummary rt hosts none).NewExposures = none ∧
    (GenerateSummary rt hosts none).NewExposures ≠ some [] :=
  ⟨rfl, fun h => by cases h⟩

/-! ## The order of the exposed ports -/

theorem strictWeakOrder_exposedLess : StrictWeakOrder exposedLess := by
  refine ⟨?_, ?_, ?_⟩
  · intro x
    simp [exposedLess]
  · intro x y z hxy hyz
    simp only [exposedLess, decide_eq_true_eq] at *
    omega
  · intro x y z hxy hyz
    simp only [exposedLess, decide_eq_false_iff_not] at *
    omega

/-- The exposed ports of the summary: what the loop over the port counters
collects, sorted. -/
theorem GenerateSummary_ExposedPorts (rt : GoRuntime) (hosts : List HostWithPorts)
    (baseline : Option DiffResult) :
    (GenerateSummary rt hosts baseline).ExposedPorts.elems
      = rt.sortSlice exposedLess
          (collectExposed rt (tally hosts).portCounts (tally hosts).portServices none).elems := by
  rw [GenerateSummary_ExposedPorts_eq, elems_sortSlice]

theorem pairwise_ExposedPorts (rt : GoRuntime) (hosts : List HostWithPorts)
    (baseline : Option DiffResult) :
    (GenerateSummary rt hosts baseline).ExposedPorts.elems.Pairwise
      (fun x y => y.Count ≤ x.Count) := by
  rw [GenerateSummary_ExposedPorts]
  refine (rt.sortSlice_sorted exposedLess _ strictWeakOrder_exposedLess).imp ?_
  intro x y hxy
  simp only [exposedLess, decide_eq_false_iff_not] at hxy
  omega

/-- C14. `GenerateSummary`, whatever order the map is visited in and
whatever permutation the sort produces: `ExposedPorts` is sorted by
non-increasing `Count`, i.e. the entry at index `i` has at least the count of
the entry at any later index `j`. -/
theorem GenerateSummary_exposedPorts_sorted (rt : GoRuntime) (hosts : List HostWithPorts)
    (baseline : Option DiffResult)
    (i j : Fin (GenerateSummary rt hosts baseline).ExposedPorts.elems.length) (hij : i < j) :
    ((GenerateSummary rt hosts baseline).ExposedPorts.elems.get j).Count
      ≤ ((GenerateSummary rt hosts baseline).ExposedPorts.elems.get i).Count :=
  List.pairwise_iff_get.1 (pairwise_ExposedPorts rt hosts baseline) i j hij

/-! ## The well-known ports -/

theorem guessService_of_mem : ∀ kv ∈ wellKnownPorts, guessService kv.1 = kv.2 := by
  decide

theorem lookup_eq_none_of_not_mem (l : List (Nat × String)) (k : Nat)
    (h : k ∉ l.map Prod.fst) : l.lookup k = none := by
  induction l with
  | nil => rfl
  | cons kv l ih =>
    obtain ⟨a, b⟩ := kv
    simp only [List.map_cons, List.mem_cons, not_or] at h
    have hne : (k == a) = false := by simpa using h.1
    simp [List.lookup, hne, ih h.2]

theorem guessService_of_not_mem {port : Nat} (h : port ∉ wellKnownPorts.map Prod.fst) :
    guessService port = "Unknown" := by
  simp [wellKnownPorts] at h
  unfold guessService
  split <;> simp_all

/-- C15. `guessService`: each of the 17 ports of the documented table gets
its label (21 FTP, 22 SSH, 23 Telnet, 25 SMTP, 53 DNS, 80 HTTP, 110 POP3,
143 IMAP, 443 HTTPS, 445 SMB, 3306 MySQL, 3389 RDP, 5432 PostgreSQL, 5900 VNC,
6379 Redis, 8080 HTTP Proxy, 27017 MongoDB) and every other port, 16-bit or
not, gets `Unknown`. -/
theorem guessService_spec (port : Nat) :
    wellKnownPorts.length = 17 ∧
    (∀ label, (port, label) ∈ wellKnownPorts → guessService port = label) ∧
    (port ∉ [21, 22, 23, 25, 53, 80, 110, 143, 443, 445, 3306, 3389, 5432, 5900, 6379, 8080,
        27017] → guessService port = "Unknown") ∧
    guessService port = (wellKnownPorts.lookup port).getD "Unknown" := by
  refine ⟨rfl, fun label hm => guessService_of_mem (port, label) hm, ?_, ?_⟩
  · intro h
    exact guessService_of_not_mem h
  · by_cases h : port ∈ wellKnownPorts.map Prod.fst
    · simp only [wellKnownPorts, List.map_cons, List.map_nil, List.mem_cons,
        List.not_mem_nil, or_false] at h
      rcases h with h | h | h | h | h | h | h | h | h | h | h | h | h | h | h | h | h <;>
        subst h <;> rfl
    · rw [guessService_of_not_mem h, lookup_eq_none_of_not_mem _ _ h]
      rfl

/-- C15 at the ports of the test suite: 22, 27017 and the unlisted 9999. -/
theorem guessService_spec_witness :
    guessService 22 = "SSH" ∧ guessService 27017 = "MongoDB" ∧ guessService 9999 = "Unknown" :=
  ⟨(guessService_spec 22).2.1 "SSH" (by decide),
   (guessService_spec 27017).2.1 "MongoDB" (by decide),
   (guessService_spec 9999).2.2.1 (by decide)⟩

/-- C14 on a collection where the port met first has the smaller count. -/
theorem GenerateSummary_exposedPorts_sorted_witness :
    ((⟨0, by decide⟩ : Fin (GenerateSummary stdRuntime orderExample none).ExposedPorts.elems.length)
        < ⟨1, by decide⟩) ∧
    ((GenerateSummary stdRuntime orderExample none).ExposedPorts.elems.get ⟨1, by decide⟩).Count
      ≤ ((GenerateSummary stdRuntime orderExample none).ExposedPorts.elems.get
          ⟨0, by decide⟩).Count :=
  ⟨by decide,
   GenerateSummary_exposedPorts_sorted stdRuntime orderExample none ⟨0, by decide⟩
     ⟨1, by decide⟩ (by decide)⟩

/-- The exposed ports of that collection: port 22 counted five times and
named by the first named finding, port 80 three times. -/
theorem GenerateSummary_orderExample :
    (tally orderExample).portCounts = [(80, 3), (22, 5)] ∧
    (GenerateSummary stdRuntime orderExample none).ExposedPorts
      = some [⟨22, "OpenSSH", 5⟩, ⟨80, "HTTP", 3⟩] := by
  decide

/-! ## The port counters and the service names after the host loop -/

theorem deepStep_portServices (host : HostWithPorts) (t : Tally) (dp : DeepScanPort) :
    (deepStep host t dp).portServices = svcStep t.portServices dp := by
  unfold deepStep svcStep
  simp only [vulnStep_portServices]
  split <;> rfl

theorem foldl_deepStep_portServices (host : HostWithPorts) (dps : List DeepScanPort)
    (t : Tally) :
    (dps.foldl (deepStep host) t).portServices = dps.foldl svcStep t.portServices := by
  induction dps generalizing t with
  | nil => rfl
  | cons dp dps ih => rw [List.foldl_cons, ih, deepStep_portServices, List.foldl_cons]

theorem foldl_hostStep_portServices (hosts : List HostWithPorts) (t : Tally) :
    (hosts.foldl hostStep t).portServices = (allDeepPorts hosts).foldl svcStep t.portServices := by
  induction hosts generalizing t with
  | nil => rfl
  | cons h hosts ih =>
    rw [List.foldl_cons, ih]
    simp [hostStep, foldl_deepStep_portServices, allDeepPorts, List.foldl_append]

/-- What the service map reads at a port after a run of findings. -/
theorem getD_mapGet_foldl_svcStep (dps : List DeepScanPort) (m : List (Nat × String))
    (p : Nat) :
    (mapGet (dps.foldl svcStep m) p).getD ""
      = if (mapGet m p).getD "" = "" then
          ((dps.find? (fun dp => decide (dp.Port = p) && decide (dp.ServiceName ≠ ""))).map
            (fun dp => dp.ServiceName)).getD ""
        else (mapGet m p).getD "" := by
  induction dps generalizing m with
  | nil =>
    simp only [List.foldl_nil, List.find?_nil, Option.map_none', Option.getD_none]
    split
    · assumption
    · rfl
  | cons dp dps ih =>
    rw [List.foldl_cons, ih]
    unfold svcStep
    by_cases hp : dp.Port = p
    · subst hp
      by_cases hm : (mapGet m dp.Port).getD "" = ""
      · by_cases hn : dp.ServiceName = ""
        · simp [hm, hn, mapGet_mapSet, List.find?_cons]
        · simp [hm, hn, mapGet_mapSet, List.find?_cons]
      · simp [hm]
    · by_cases hm : (mapGet m dp.Port).getD "" = ""
      · simp [hm, hp, mapGet_mapSet, List.find?_cons]
      · simp [hm, hp, List.find?_cons]

/-- What the counter map holds for a port after a run of ports. -/
theorem mapGet_foldl_countPort (ps : List Nat) (m : List (Nat × Nat)) (p : Nat) :
    mapGet (ps.foldl countPort m) p
      = if ps.count p = 0 then mapGet m p else some ((mapGet m p).getD 0 + ps.count p) := by
  induction ps generalizing m with
  | nil => simp
  | cons q ps ih =>
    rw [List.foldl_cons, ih]
    unfold countPort
    by_cases hq : q = p
    · subst hq
      simp only [mapGet_mapSet, if_true, List.count_cons_self, Option.getD_some,
        Nat.add_one_ne_zero, if_false]
      split
      · rename_i h0
        rw [h0]
      · congr 1
        omega
    · have hqb : (q == p) = false := by simpa using hq
      simp [mapGet_mapSet, hq, List.count_cons, hqb]

theorem nodup_mapKeys_foldl_countPort (ps : List Nat) (m : List (Nat × Nat))
    (h : (mapKeys m).Nodup) : (mapKeys (ps.foldl countPort m)).Nodup := by
  induction ps generalizing m with
  | nil => exact h
  | cons q ps ih =>
    rw [List.foldl_cons]
    exact ih _ (nodup_mapKeys_mapSet h _ _)

/-- The ports counted by the loop are the occurrences of the statement. -/
theorem count_portEvents (hosts : List HostWithPorts) (p : Nat) :
    (portEvents hosts).count p = occurrences hosts p := by
  induction hosts with
  | nil => rfl
  | cons h hosts ih =>
    unfold portEvents occurrences at *
    simp only [List.flatMap_cons, List.count_append, List.map_cons, List.sum_cons, ih]
    omega

/-- The counter map after the host loop, read at one port. -/
theorem mapGet_tally_portCounts (hosts : List HostWithPorts) (p : Nat) :
    mapGet (tally hosts).portCounts p
      = if occurrences hosts p = 0 then none else some (occurrences hosts p) := by
  unfold tally
  rw [foldl_hostStep_portCounts, mapGet_foldl_countPort, count_portEvents]
  simp [mapGet]

theorem nodup_mapKeys_tally_portCounts (hosts : List HostWithPorts) :
    (mapKeys (tally hosts).portCounts).Nodup := by
  unfold tally
  rw [foldl_hostStep_portCounts]
  exact nodup_mapKeys_foldl_countPort _ _ (by simp [mapKeys])

/-- The service map after the host loop, read at one port. -/
theorem getD_mapGet_tally_portServices (hosts : List HostWithPorts) (p : Nat) :
    (mapGet (tally hosts).portServices p).getD ""
      = ((firstNamed hosts p).map (fun dp => dp.ServiceName)).getD "" := by
  unfold tally
  rw [foldl_hostStep_portServices, getD_mapGet_foldl_svcStep]
  simp [mapGet, firstNamed]

/-! ## The exposed ports of the summary -/

theorem exposeStep_eq (ps : List (Nat × String)) (s : Slice ExposedPort) (kv : Nat × Nat) :
    exposeStep ps s kv
      = match exposureOf ps kv with
        | some e => s.push e
        | none => s := by
  unfold exposeStep exposureOf
  split <;> rfl

theorem elems_foldl_exposeStep (ps : List (Nat × String)) (l : List (Nat × Nat))
    (s : Slice ExposedPort) :
    (l.foldl (exposeStep ps) s).elems = s.elems ++ l.filterMap (exposureOf ps) := by
  induction l generalizing s with
  | nil => simp
  | cons kv l ih =>
    rw [List.foldl_cons, ih, exposeStep_eq]
    cases h : exposureOf ps kv <;> simp [List.filterMap_cons, h, Slice.push, Slice.elems]

theorem elems_collectExposed (rt : GoRuntime) (pc : List (Nat × Nat)) (ps : List (Nat × String)) :
    (collectExposed rt pc ps none).elems = (rt.mapRange pc).filterMap (exposureOf ps) := by
  unfold collectExposed
  rw [elems_foldl_exposeStep]
  rfl

theorem exposureOf_eq_some {ps : List (Nat × String)} {kv : Nat × Nat} {e : ExposedPort}
    (h : exposureOf ps kv = some e) :
    3 ≤ kv.2 ∧ e.Port = kv.1 ∧ e.Count = kv.2 ∧
      e.Service = (if (mapGet ps kv.1).getD "" = "" then guessService kv.1
        else (mapGet ps kv.1).getD "") := by
  unfold exposureOf at h
  split at h
  · rename_i h3
    simp only [Option.some.injEq] at h
    subst h
    exact ⟨h3, rfl, rfl, rfl⟩
  · cases h

/-- The label the summarizer gives a port is the name of the first named
finding, else the well-known label. -/
theorem service_tally (hosts : List HostWithPorts) (p : Nat) :
    (if (mapGet (tally hosts).portServices p).getD "" = "" then guessService p
      else (mapGet (tally hosts).portServices p).getD "") = serviceOf hosts p := by
  rw [getD_mapGet_tally_portServices]
  unfold serviceOf
  cases hf : firstNamed hosts p with
  | none => simp
  | some dp =>
    have h1 := List.find?_some hf
    simp only [Bool.and_eq_true, decide_eq_true_eq] at h1
    simp [h1.2]

/-- Membership in `ExposedPorts`, in terms of the host collection. -/
theorem mem_ExposedPorts_iff (rt : GoRuntime) (hosts : List HostWithPorts)
    (baseline : Option DiffResult) (e : ExposedPort) :
    e ∈ (GenerateSummary rt hosts baseline).ExposedPorts.elems
      ↔ 3 ≤ occurrences hosts e.Port ∧ e.Count = occurrences hosts e.Port ∧
          e.Service = serviceOf hosts e.Port := by
  rw [GenerateSummary_ExposedPorts, (rt.sortSlice_perm exposedLess _).mem_iff,
    elems_collectExposed, List.mem_filterMap]
  constructor
  · rintro ⟨⟨k, c⟩, hmem, hf⟩
    have h1 := (rt.mapRange_perm (tally hosts).portCounts).mem_iff.1 hmem
    have h2 := (mem_iff_mapGet (nodup_mapKeys_tally_portCounts hosts) k c).1 h1
    rw [mapGet_tally_portCounts] at h2
    obtain ⟨h3, hp, hc, hs⟩ := exposureOf_eq_some hf
    simp only at h3 hp hc hs
    split at h2
    · cases h2
    · simp only [Option.some.injEq] at h2
      rw [service_tally] at hs
      rw [hp, hc, hs]
      exact ⟨by omega, h2.symm, rfl⟩
  · rintro ⟨h3, hc, hs⟩
    refine ⟨(e.Port, occurrences hosts e.Port), ?_, ?_⟩
    · apply (rt.mapRange_perm (tally hosts).portCounts).mem_iff.2
      apply (mem_iff_mapGet (nodup_mapKeys_tally_portCounts hosts) _ _).2
      rw [mapGet_tally_portCounts]
      have : ¬ occurrences hosts e.Port = 0 := by omega
      simp [this]
    · unfold exposureOf
      have hge : (e.Port, occurrences hosts e.Port).2 ≥ 3 := h3
      simp only [hge, if_true, service_tally, Option.some.injEq]
      cases e
      simp only at hc hs
      simp [hc, hs]

theorem map_Port_filterMap_sublist (ps : List (Nat × String)) (l : List (Nat × Nat)) :
    ((l.filterMap (exposureOf ps)).map (fun e => e.Port)).Sublist (mapKeys l) := by
  induction l with
  | nil => simp [mapKeys]
  | cons kv l ih =>
    cases h : exposureOf ps kv with
    | none =>
      simp only [List.filterMap_cons, h, mapKeys, List.map_cons]
      exact List.Sublist.cons _ ih
    | some e =>
      obtain ⟨_, hp, _, _⟩ := exposureOf_eq_some h
      simp only [List.filterMap_cons, h, mapKeys, List.map_cons, hp]
      exact List.Sublist.cons₂ _ ih

/-- No port has two entries in `ExposedPorts`. -/
theorem nodup_ExposedPorts (rt : GoRuntime) (hosts : List HostWithPorts)
    (baseline : Option DiffResult) :
    ((GenerateSummary rt hosts baseline).ExposedPorts.elems.map (fun e => e.Port)).Nodup := by
  rw [GenerateSummary_ExposedPorts]
  rw [((rt.sortSlice_perm exposedLess _).map _).nodup_iff, elems_collectExposed]
  apply (map_Port_filterMap_sublist _ _).nodup
  have hp : (mapKeys (rt.mapRange (tally hosts).portCounts)).Perm
      (mapKeys (tally hosts).portCounts) := (rt.mapRange_perm _).map _
  exact hp.nodup_iff.2 (nodup_mapKeys_tally_portCounts hosts)

theorem firstNamed_eq_none_iff (hosts : List HostWithPorts) (p : Nat) :
    firstNamed hosts p = none
      ↔ ∀ dp ∈ allDeepPorts hosts, dp.Port = p → dp.ServiceName = "" := by
  unfold firstNamed
  rw [List.find?_eq_none]
  constructor
  · intro h dp hm hp
    have := h dp hm
    simpa [hp] using this
  · intro h dp hm
    have := h dp hm
    by_cases hp : dp.Port = p
    · simp [hp, this hp]
    · simp [hp]

theorem allDeepPorts_eq_nil {hosts : List HostWithPorts} (h : ∀ x ∈ hosts, x.DeepPorts = []) :
    allDeepPorts hosts = [] := by
  unfold allDeepPorts
  induction hosts with
  | nil => rfl
  | cons x hosts ih =>
    simp only [List.flatMap_cons, h x (List.mem_cons_self _ _), List.nil_append]
    exact ih (fun y hy => h y (List.mem_cons_of_mem _ hy))

/-- C11. `GenerateSummary`, for every entry of `ExposedPorts`: when a
deep-scan finding for the entry's port has a non-empty service name, the
entry's `Service` is the name of the first such finding (hosts in order,
findings in order); when there is none, it is `guessService` of the port, which
is `Unknown` outside the well-known table.  Basic open ports supply no name: a
collection without deep-scan findings gets the well-known label. -/
theorem GenerateSummary_exposedPorts_service (rt : GoRuntime) (hosts : List HostWithPorts)
    (baseline : Option DiffResult) (e : ExposedPort)
    (he : e ∈ (GenerateSummary rt hosts baseline).ExposedPorts.elems) :
    (∀ dp, firstNamed hosts e.Port = some dp → e.Service = dp.ServiceName) ∧
    ((∀ dp ∈ allDeepPorts hosts, dp.Port = e.Port → dp.ServiceName = "") →
      e.Service = guessService e.Port) ∧
    ((∀ dp ∈ allDeepPorts hosts, dp.Port = e.Port → dp.ServiceName = "") →
      e.Port ∉ wellKnownPorts.map Prod.fst → e.Service = "Unknown") ∧
    ((∀ h ∈ hosts, h.DeepPorts = []) → e.Service = guessService e.Port) := by
  obtain ⟨_, _, hs⟩ := (mem_ExposedPorts_iff rt hosts baseline e).1 he
  have hnone : (∀ dp ∈ allDeepPorts hosts, dp.Port = e.Port → dp.ServiceName = "") →
      e.Service = guessService e.Port := by
    intro h
    rw [hs]
    unfold serviceOf
    rw [(firstNamed_eq_none_iff hosts e.Port).2 h]
  refine ⟨?_, hnone, ?_, ?_⟩
  · intro dp hdp
    rw [hs]
    unfold serviceOf
    rw [hdp]
  · intro h hp
    rw [hnone h, guessService_of_not_mem hp]
  · intro h
    apply hnone
    rw [allDeepPorts_eq_nil h]
    intro dp hdp
    cases hdp

/-- C11 on a collection where the first finding for port 22 has no name, the
second is named `OpenSSH` and the third `ssh`; port 80 has no finding. -/
theorem GenerateSummary_exposedPorts_service_witness :
    ((⟨22, "OpenSSH", 5⟩ : ExposedPort)
        ∈ (GenerateSummary stdRuntime orderExample none).ExposedPorts.elems ∧
      firstNamed orderExample 22 = some ⟨22, "OpenSSH", "", false, "", ""⟩ ∧
      "OpenSSH" = (⟨22, "OpenSSH", "", false, "", ""⟩ : DeepScanPort).ServiceName) ∧
    ((⟨80, "HTTP", 3⟩ : ExposedPort)
        ∈ (GenerateSummary stdRuntime orderExample none).ExposedPorts.elems ∧
      "HTTP" = guessService 80) :=
  ⟨⟨by decide, by decide,
    (GenerateSummary_exposedPorts_service stdRuntime orderExample none ⟨22, "OpenSSH", 5⟩
      (by decide)).1 ⟨22, "OpenSSH", "", false, "", ""⟩ (by decide)⟩,
   ⟨by decide,
    (GenerateSummary_exposedPorts_service stdRuntime orderExample none ⟨80, "HTTP", 3⟩
      (by decide)).2.1 (by decide)⟩⟩

/-- C18. `GenerateSummary`, with `occurrences hosts p` the number of
occurrences of port `p`, with multiplicity, over the basic port lists and the
deep-scan findings of all hosts: port `p` has an entry in `ExposedPorts` exactly
when it occurs at least 3 times, it has at most one entry, the `Count` of its
entry is its number of occurrences, and every `Count` is at least 3. -/
theorem GenerateSummary_exposedPorts_occurrences (rt : GoRuntime) (hosts : List HostWithPorts)
    (baseline : Option DiffResult) (p : Nat) :
    ((∃ e ∈ (GenerateSummary rt hosts baseline).ExposedPorts.elems, e.Port = p)
      ↔ 3 ≤ occurrences hosts p) ∧
    ((GenerateSummary rt hosts baseline).ExposedPorts.elems.map (fun e => e.Port)).count p ≤ 1 ∧
    (∀ e ∈ (GenerateSummary rt hosts baseline).ExposedPorts.elems,
      e.Port = p → e.Count = occurrences hosts p) ∧
    (∀ e ∈ (GenerateSummary rt hosts baseline).ExposedPorts.elems, 3 ≤ e.Count) := by
  refine ⟨⟨?_, ?_⟩, ?_, ?_, ?_⟩
  · rintro ⟨e, he, hp⟩
    obtain ⟨h3, _, _⟩ := (mem_ExposedPorts_iff rt hosts baseline e).1 he
    rw [← hp]
    exact h3
  · intro h3
    exact ⟨⟨p, serviceOf hosts p, occurrences hosts p⟩,
      (mem_ExposedPorts_iff rt hosts baseline _).2 ⟨h3, rfl, rfl⟩, rfl⟩
  · exact List.nodup_iff_count_le_one.1 (nodup_ExposedPorts rt hosts baseline) p
  · intro e he hp
    obtain ⟨_, hc, _⟩ := (mem_ExposedPorts_iff rt hosts baseline e).1 he
    rw [hc, hp]
  · intro e he
    obtain ⟨h3, hc, _⟩ := (mem_ExposedPorts_iff rt hosts baseline e).1 he
    omega

/-- C18 on the same collection: port 22 occurs five times (twice as a basic
port, three times among the findings) and has the entry with `Count` 5; port
443 does not occur and has no entry. -/
theorem GenerateSummary_exposedPorts_occurrences_witness :
    occurrences orderExample 22 = 5 ∧
    (∃ e ∈ (GenerateSummary stdRuntime orderExample none).ExposedPorts.elems, e.Port = 22) ∧
    (⟨22, "OpenSSH", 5⟩ : ExposedPort).Count = occurrences orderExample 22 ∧
    3 ≤ (⟨80, "HTTP", 3⟩ : ExposedPort).Count ∧
    ¬ ∃ e ∈ (GenerateSummary stdRuntime orderExample none).ExposedPorts.elems, e.Port = 443 :=
  ⟨by decide,
   (GenerateSummary_exposedPorts_occurrences stdRuntime orderExample none 22).1.2 (by decide),
   (GenerateSummary_exposedPorts_occurrences stdRuntime orderExample none 22).2.2.1
     ⟨22, "OpenSSH", 5⟩ (by decide) rfl,
   (GenerateSummary_exposedPorts_occurrences stdRuntime orderExample none 80).2.2.2
     ⟨80, "HTTP", 3⟩ (by decide),
   fun h => absurd
     ((GenerateSummary_exposedPorts_occurrences stdRuntime orderExample none 443).1.1 h)
     (by decide)⟩

/-! ## The ten kept risky hosts -/

/-- The value the risky-host map holds for a vulnerable address. -/
theorem exists_mem_tally_riskyMap {hosts : List HostWithPorts} {ip : String}
    (hip : ip ∈ vulnerableAddrs hosts) :
    ∃ v : RiskyHost, (ip, v) ∈ (tally hosts).riskyMap ∧ v.IP = ip ∧
      v.VulnCount = vulnTotal hosts ip := by
  have hk := (mem_mapKeys_tally_riskyMap hosts ip).2 hip
  have hne : mapGet (tally hosts).riskyMap ip ≠ none :=
    fun h => ((mapGet_eq_none_iff _ _).1 h) hk
  have hg := mapGet_tally_riskyMap hosts ip
  cases hf : firstVulnerable hosts ip with
  | none =>
    rw [hf] at hg
    exact absurd hg hne
  | some h =>
    rw [hf] at hg
    exact ⟨_, (mem_iff_mapGet (nodup_mapKeys_tally_riskyMap hosts) _ _).2 hg, rfl, rfl⟩

/-- C19. `GenerateSummary`, for a collection with more than ten distinct
vulnerable addresses: `RiskyHosts` has ten entries, and a vulnerable address
that has no entry has an aggregated vulnerability count that is at most the
`VulnCount` of every entry kept, because the cut comes after the sort. -/
theorem GenerateSummary_riskyHosts_top10 (rt : GoRuntime) (hosts : List HostWithPorts)
    (baseline : Option DiffResult) (h10 : 10 < (vulnerableAddrs hosts).length)
    (ip : String) (hip : ip ∈ vulnerableAddrs hosts)
    (homit : ∀ e ∈ (GenerateSummary rt hosts baseline).RiskyHosts.elems, e.IP ≠ ip)
    (e : RiskyHost) (he : e ∈ (GenerateSummary rt hosts baseline).RiskyHosts.elems) :
    (GenerateSummary rt hosts baseline).RiskyHosts.elems.length = 10 ∧
    vulnTotal hosts ip ≤ e.VulnCount := by
  constructor
  · rw [GenerateSummary_RiskyHosts, List.length_take, (rt.sortSlice_perm riskyLess _).length_eq,
      List.length_map, (rt.mapRange_perm _).length_eq, length_tally_riskyMap]
    omega
  · obtain ⟨v, hv, hvip, hvc⟩ := exists_mem_tally_riskyMap hip
    rw [GenerateSummary_RiskyHosts] at homit he
    have hvL : v ∈ rt.sortSlice riskyLess ((rt.mapRange (tally hosts).riskyMap).map Prod.snd) := by
      apply (rt.sortSlice_perm riskyLess _).mem_iff.2
      exact List.mem_map.2 ⟨(ip, v), (rt.mapRange_perm _).mem_iff.2 hv, rfl⟩
    have hsorted := rt.sortSlice_sorted riskyLess
      ((rt.mapRange (tally hosts).riskyMap).map Prod.snd) strictWeakOrder_riskyLess
    rw [← List.take_append_drop 10
      (rt.sortSlice riskyLess ((rt.mapRange (tally hosts).riskyMap).map Prod.snd))] at hvL hsorted
    have hdrop : v ∈ List.drop 10
        (rt.sortSlice riskyLess ((rt.mapRange (tally hosts).riskyMap).map Prod.snd)) := by
      rcases List.mem_append.1 hvL with h | h
      · exact absurd hvip (homit v h)
      · exact h
    have hle := (List.pairwise_append.1 hsorted).2.2 e he v hdrop
    simp only [riskyLess, decide_eq_false_iff_not] at hle
    omega

set_option maxRecDepth 100000 in
/-- C19 on twelve vulnerable addresses, two of them with one finding and ten
with two: the address `10.0.0.A`, with one finding, is left out, and the kept
entry of `10.0.0.C` has two. -/
theorem GenerateSummary_riskyHosts_top10_witness :
    (10 < (vulnerableAddrs top10Example).length ∧
      "10.0.0.A" ∈ vulnerableAddrs top10Example ∧
      (∀ e ∈ (GenerateSummary stdRuntime top10Example none).RiskyHosts.elems,
        e.IP ≠ "10.0.0.A") ∧
      (⟨"10.0.0.C", "", 2⟩ : RiskyHost)
        ∈ (GenerateSummary stdRuntime top10Example none).RiskyHosts.elems) ∧
    (GenerateSummary stdRuntime top10Example none).RiskyHosts.elems.length = 10 ∧
    vulnTotal top10Example "10.0.0.A" ≤ (⟨"10.0.0.C", "", 2⟩ : RiskyHost).VulnCount :=
  ⟨⟨by decide, by decide, by decide, by decide⟩,
   GenerateSummary_riskyHosts_top10 stdRuntime top10Example none (by decide) "10.0.0.A"
     (by decide) (by decide) ⟨"10.0.0.C", "", 2⟩ (by decide)⟩

/-! ## Masking an address twice -/

/-- Splitting a masked address gives the three kept components and `x`. -/
theorem Split_masked_ip {s : String} {p0 p1 p2 p3 : String}
    (h : Split s '.' = [p0, p1, p2, p3]) :
    Split (p0 ++ "." ++ p1 ++ "." ++ p2 ++ ".x") '.' = [p0, p1, p2, "x"] := by
  have h0 : '.' ∉ p0.data := @not_mem_of_mem_Split s '.' p0 (by simp [h])
  have h1 : '.' ∉ p1.data := @not_mem_of_mem_Split s '.' p1 (by simp [h])
  have h2 : '.' ∉ p2.data := @not_mem_of_mem_Split s '.' p2 (by simp [h])
  have hd : (p0 ++ "." ++ p1 ++ "." ++ p2 ++ ".x").data
      = p0.data ++ '.' :: (p1.data ++ '.' :: (p2.data ++ '.' :: ['x'])) := by
    have e1 : ".".data = ['.'] := rfl
    have e2 : ".x".data = ['.', 'x'] := rfl
    simp [String.data_append, e1, e2]
  unfold Split
  rw [hd, splitChars_three h0 h1 h2]
  rfl

/-- C20. `sanitizeIP` is idempotent: masking a masked address changes
nothing. -/
theorem sanitizeIP_idempotent (s : String) : sanitizeIP (sanitizeIP s) = sanitizeIP s := by
  by_cases hl : (Split s '.').length = 4
  · rcases h : Split s '.' with _ | ⟨p0, _ | ⟨p1, _ | ⟨p2, _ | ⟨p3, _ | ⟨p4, t⟩⟩⟩⟩⟩ <;>
      rw [h] at hl <;> simp at hl
    rw [sanitizeIP_of_Split h]
    exact sanitizeIP_of_Split (Split_masked_ip h)
  · have : sanitizeIP s = s := by simp [sanitizeIP, hl]
    rw [this, this]

/-- Masking twice, on the address of the test suite, on a masked address and
on strings of other shapes. -/
theorem sanitizeIP_twice_examples :
    sanitizeIP (sanitizeIP "192.168.1.50") = "192.168.1.x" ∧
    sanitizeIP "192.168.1.x" = "192.168.1.x" ∧
    sanitizeIP (sanitizeIP "...") = "...x" ∧
    sanitizeIP (sanitizeIP "a.b.c.d.e") = "a.b.c.d.e" ∧
    sanitizeIP (sanitizeIP "") = "" := by
  decide

/-! ## The exporter -/

/-- C16. `Export`, for a format that is none of `json`, `csv`, `html`,
`pdf` (compared exactly, so case matters), whatever the hosts, the summary and
the destination: it returns an error whose message contains
`unsupported format` and the offending identifier, and it creates or writes no
file. -/
theorem Export_unsupported (env : ExportEnv) (format output : String)
    (hosts : List HostWithPorts) (summary : Option Summary)
    (hj : format ≠ "json") (hc : format ≠ "csv") (hh : format ≠ "html") (hp : format ≠ "pdf") :
    ∃ msg, (Export env format output hosts summary).err = some msg ∧
      Contains msg "unsupported format" ∧ Contains msg format ∧
      (Export env format output hosts summary).writes = [] := by
  refine ⟨"unsupported format: " ++ format, ?_, ?_, ?_, ?_⟩
  · simp [Export, hj, hc, hh, hp]
  · exact ⟨[], ": ".data ++ format.data, by simp [String.data_append]⟩
  · exact ⟨"unsupported format: ".data, [], by simp [String.data_append]⟩
  · simp [Export, hj, hc, hh, hp]

/-- C16 at the format of the test suite, `yaml`. -/
theorem Export_unsupported_witness :
    ("yaml" ≠ "json" ∧ "yaml" ≠ "csv" ∧ "yaml" ≠ "html" ∧ "yaml" ≠ "pdf") ∧
    ∃ msg, (Export plainEnv "yaml" "out.yaml" [] none).err = some msg ∧
      Contains msg "unsupported format" ∧ Contains msg "yaml" ∧
      (Export plainEnv "yaml" "out.yaml" [] none).writes = [] :=
  ⟨⟨by decide, by decide, by decide, by decide⟩,
   Export_unsupported plainEnv "yaml" "out.yaml" [] none (by decide) (by decide) (by decide)
     (by decide)⟩

/-- The dispatch is case-sensitive, and the four known formats are not
rejected as unsupported. -/
theorem Export_examples :
    Contains "unsupported format: JSON" "JSON" ∧ ¬ Contains "unsupported format: JSON" "json" ∧
    Export plainEnv "JSON" "out" [] none = ⟨[], some "unsupported format: JSON"⟩ ∧
    Export plainEnv "json" "out" [] none = ⟨[("out", "{}")], none⟩ ∧
    Export plainEnv "pdf" "out" [] none
      = ⟨[], some "PDF export requires the gofpdf package"⟩ ∧
    Export plainEnv "csv" "out.csv" csvExample none
      = ⟨[("out.csv", "IP,Hostname,Port\n10.0.0.1,,22\n10.0.0.1,,80\n10.0.0.2,srv2,")], none⟩ := by
  decide

theorem length_csvRows (env : ExportEnv) (all hosts : List HostWithPorts) :
    (hosts.flatMap (fun h =>
        if h.DeepPorts.isEmpty then [h.IP :: env.hostRest all h]
        else h.DeepPorts.map (fun dp => h.IP :: env.findingRest all h dp))).length
      = (hosts.map (fun h => max 1 h.DeepPorts.length)).sum := by
  induction hosts with
  | nil => rfl
  | cons h hosts ih =>
    simp only [List.flatMap_cons, List.length_append, ih, List.map_cons, List.sum_cons]
    cases hd : h.DeepPorts with
    | nil => simp
    | cons dp dps => simp

theorem heads_csvRows (env : ExportEnv) (all hosts : List HostWithPorts) :
    (hosts.flatMap (fun h =>
        if h.DeepPorts.isEmpty then [h.IP :: env.hostRest all h]
        else h.DeepPorts.map (fun dp => h.IP :: env.findingRest all h dp))).map List.head?
      = hosts.flatMap (fun h => List.replicate (max 1 h.DeepPorts.length) (some h.IP)) := by
  induction hosts with
  | nil => rfl
  | cons h hosts ih =>
    simp only [List.flatMap_cons, List.map_append, ih]
    congr 1
    cases hd : h.DeepPorts with
    | nil => simp
    | cons dp dps =>
      have hmax : max 1 (dps.length + 1) = dps.length + 1 := by omega
      simp only [List.isEmpty_cons, Bool.false_eq_true, if_false, List.map_map, List.length_cons,
        hmax]
      rw [List.eq_replicate_iff]
      constructor
      · simp
      · intro x hx
        obtain ⟨y, _, hy⟩ := List.mem_map.1 hx
        rw [← hy]
        rfl

/-- C17. `Export` with format `csv`: the content written to the destination
is the encoding of a header row whose first column is `IP`, followed by the
data rows; there are as many data rows as the sum over the hosts of
`max 1 (number of findings)`, one per finding for a host that has findings and
one for a host that has none; and the first column of each data row is the
address of its host. -/
theorem Export_csv (env : ExportEnv) (output : String) (hosts : List HostWithPorts)
    (summary : Option Summary) :
    (Export env "csv" output hosts summary).writes
      = [(output, env.encodeCSV (csvRecords env hosts))] ∧
    (csvRecords env hosts).head? = some ("IP" :: env.headerRest hosts) ∧
    (csvRecords env hosts).tail.length = (hosts.map (fun h => max 1 h.DeepPorts.length)).sum ∧
    (csvRecords env hosts).tail.map List.head?
      = hosts.flatMap (fun h => List.replicate (max 1 h.DeepPorts.length) (some h.IP)) := by
  refine ⟨?_, rfl, ?_, ?_⟩
  · simp [Export, writeReport]
  · exact length_csvRows env hosts hosts
  · exact heads_csvRows env hosts hosts

/-- The scenario of the specification: one host with two findings gives
three records, and a host without findings adds one. -/
theorem csvRecords_examples :
    (csvRecords plainEnv (csvExample.take 1)).length = 3 ∧
    csvRecords plainEnv csvExample
      = [["IP", "Hostname", "Port"], ["10.0.0.1", "", "22"], ["10.0.0.1", "", "80"],
         ["10.0.0.2", "srv2", ""]] := by
  decide

/-! ## Masking a hardware address twice -/

theorem eq_six_of_length {l : List String} (h : l.length = 6) :
    ∃ a b c d e f, l = [a, b, c, d, e, f] := by
  rcases l with _ | ⟨a, _ | ⟨b, _ | ⟨c, _ | ⟨d, _ | ⟨e, _ | ⟨f, _ | ⟨g, t⟩⟩⟩⟩⟩⟩⟩ <;>
    simp at h
  exact ⟨a, b, c, d, e, f, rfl⟩

/-- Masking an address of six colon-separated components twice is masking
it once. -/
theorem sanitizeMAC_twice_of_colon {s : String} (hc : (Split s ':').length = 6) :
    sanitizeMAC (sanitizeMAC s) = sanitizeMAC s := by
  obtain ⟨p0, p1, p2, p3, p4, p5, h⟩ := eq_six_of_length hc
  rw [sanitizeMAC_of_colon h]
  exact sanitizeMAC_of_colon (Split_masked (by decide) h)

/-- The colons of a dash-masked address are those of its first three
components. -/
theorem countSep_masked_dash (p0 p1 p2 : String) :
    countSep (p0 ++ "-" ++ p1 ++ "-" ++ p2 ++ "-" ++ "XX" ++ "-" ++ "XX" ++ "-" ++ "XX") ':'
      = countSep p0 ':' + countSep p1 ':' + countSep p2 ':' := by
  have e1 : "-".data = ['-'] := rfl
  have e2 : "XX".data = ['X', 'X'] := rfl
  simp [countSep, String.data_append, e1, e2, List.count_cons]
  omega

theorem index_six (a b c d e f : String) :
    index [a, b, c, d, e, f] 0 = a ∧ index [a, b, c, d, e, f] 1 = b ∧
      index [a, b, c, d, e, f] 2 = c :=
  ⟨rfl, rfl, rfl⟩

/-- Masking a dash-separated address twice is masking it once, unless its
first three components hold exactly five colons. -/
theorem sanitizeMAC_twice_of_dash {s : String} {p0 p1 p2 p3 p4 p5 : String}
    (hc : (Split s ':').length ≠ 6) (h : Split s '-' = [p0, p1, p2, p3, p4, p5])
    (h5 : countSep p0 ':' + countSep p1 ':' + countSep p2 ':' ≠ 5) :
    sanitizeMAC (sanitizeMAC s) = sanitizeMAC s := by
  rw [sanitizeMAC_of_dash hc h]
  have hlen : (Split (p0 ++ "-" ++ p1 ++ "-" ++ p2 ++ "-" ++ "XX" ++ "-" ++ "XX" ++ "-" ++ "XX")
      ':').length ≠ 6 := by
    rw [length_Split, countSep_masked_dash]
    omega
  exact sanitizeMAC_of_dash hlen (Split_masked (by decide) h)

/-- A colon-masked string and a dash-masked string differ: the ninth
character from the end is the separator. -/
theorem masked_colon_ne_masked_dash (q0 q1 q2 p0 p1 p2 : String) :
    q0 ++ ":" ++ q1 ++ ":" ++ q2 ++ ":" ++ "XX" ++ ":" ++ "XX" ++ ":" ++ "XX"
      ≠ p0 ++ "-" ++ p1 ++ "-" ++ p2 ++ "-" ++ "XX" ++ "-" ++ "XX" ++ "-" ++ "XX" := by
  intro heq
  have hdata := congrArg String.data heq
  have e1 : "-".data = ['-'] := rfl
  have e2 : "XX".data = ['X', 'X'] := rfl
  have e3 : ":".data = [':'] := rfl
  have hl : (q0 ++ ":" ++ q1 ++ ":" ++ q2 ++ ":" ++ "XX" ++ ":" ++ "XX" ++ ":" ++ "XX").data
      = (q0.data ++ (':' :: (q1.data ++ (':' :: q2.data))))
          ++ [':', 'X', 'X', ':', 'X', 'X', ':', 'X', 'X'] := by
    simp [String.data_append, e2, e3]
  have hr : (p0 ++ "-" ++ p1 ++ "-" ++ p2 ++ "-" ++ "XX" ++ "-" ++ "XX" ++ "-" ++ "XX").data
      = (p0.data ++ ('-' :: (p1.data ++ ('-' :: p2.data))))
          ++ ['-', 'X', 'X', '-', 'X', 'X', '-', 'X', 'X'] := by
    simp [String.data_append, e1, e2]
  rw [hl, hr] at hdata
  have := (List.append_inj' hdata rfl).2
  simp at this

/-- Masking an address of mixed shape twice differs from masking it once:
the second pass takes the colon branch. -/
theorem sanitizeMAC_twice_of_mixed {s : String} (h : mixedSeparators s) :
    sanitizeMAC (sanitizeMAC s) ≠ sanitizeMAC s := by
  obtain ⟨hc, hd, h5⟩ := h
  obtain ⟨p0, p1, p2, p3, p4, p5, hp⟩ := eq_six_of_length hd
  rw [hp, (index_six _ _ _ _ _ _).1, (index_six _ _ _ _ _ _).2.1,
    (index_six _ _ _ _ _ _).2.2] at h5
  rw [sanitizeMAC_of_dash hc hp]
  have hlen : (Split (p0 ++ "-" ++ p1 ++ "-" ++ p2 ++ "-" ++ "XX" ++ "-" ++ "XX" ++ "-" ++ "XX")
      ':').length = 6 := by
    rw [length_Split, countSep_masked_dash]
    omega
  obtain ⟨q0, q1, q2, q3, q4, q5, hq⟩ := eq_six_of_length hlen
  rw [sanitizeMAC_of_colon hq]
  exact masked_colon_ne_masked_dash q0 q1 q2 p0 p1 p2

/-- C21, as stated, fails: a string with six dash-separated components and
six colons, five of them in the first three components, is masked on the dash
branch, and the result, which has five colons, is masked again on the colon
branch. -/
theorem sanitizeMAC_not_idempotent :
    sanitizeMAC "a:b:c:d-e:f-g:h-i:j-k-l" = "a:b:c:d-e:f-g:h-XX-XX-XX" ∧
    sanitizeMAC (sanitizeMAC "a:b:c:d-e:f-g:h-i:j-k-l") = "a:b:c:XX:XX:XX" ∧
    ¬ ∀ s : String, sanitizeMAC (sanitizeMAC s) = sanitizeMAC s := by
  refine ⟨by decide, by decide, fun h => ?_⟩
  exact absurd (h "a:b:c:d-e:f-g:h-i:j-k-l") (by decide)

/-- C21, amended. `sanitizeMAC` is idempotent exactly on the strings that
are not of mixed shape: masking twice equals masking once for every string
except those with six dash-separated components, not six colon-separated
components, and exactly five colons inside the first three dash-separated
components; on those the two differ. -/
theorem sanitizeMAC_idempotent_iff (s : String) :
    sanitizeMAC (sanitizeMAC s) = sanitizeMAC s ↔ ¬ mixedSeparators s := by
  constructor
  · intro h hm
    exact sanitizeMAC_twice_of_mixed hm h
  · intro hm
    by_cases hc : (Split s ':').length = 6
    · exact sanitizeMAC_twice_of_colon hc
    · by_cases hd : (Split s '-').length = 6
      · obtain ⟨p0, p1, p2, p3, p4, p5, hp⟩ := eq_six_of_length hd
        apply sanitizeMAC_twice_of_dash hc hp
        intro h5
        apply hm
        refine ⟨hc, hd, ?_⟩
        rw [hp, (index_six _ _ _ _ _ _).1, (index_six _ _ _ _ _ _).2.1,
          (index_six _ _ _ _ _ _).2.2]
        exact h5
      · have : sanitizeMAC s = s := by simp [sanitizeMAC, hc, hd]
        rw [this, this]

/-- C21 amended, at the hardware addresses of the test suite (colon and
dash form), at a short string, and at a string of mixed shape. -/
theorem sanitizeMAC_idempotent_iff_witness :
    sanitizeMAC (sanitizeMAC "00:1B:44:11:3A:B7") = sanitizeMAC "00:1B:44:11:3A:B7" ∧
    sanitizeMAC (sanitizeMAC "00-1B-44-11-3A-B7") = sanitizeMAC "00-1B-44-11-3A-B7" ∧
    sanitizeMAC (sanitizeMAC "AA:BB") = sanitizeMAC "AA:BB" ∧
    (mixedSeparators "a:b:c:d-e:f-g:h-i:j-k-l" ∧
      sanitizeMAC (sanitizeMAC "a:b:c:d-e:f-g:h-i:j-k-l")
        ≠ sanitizeMAC "a:b:c:d-e:f-g:h-i:j-k-l") :=
  ⟨(sanitizeMAC_idempotent_iff "00:1B:44:11:3A:B7").2 (by decide),
   (sanitizeMAC_idempotent_iff "00-1B-44-11-3A-B7").2 (by decide),
   (sanitizeMAC_idempotent_iff "AA:BB").2 (by decide),
   ⟨by decide,
    fun h => (sanitizeMAC_idempotent_iff "a:b:c:d-e:f-g:h-i:j-k-l").1 h (by decide)⟩⟩

end GoReports
